import Mathlib

/-!
Verification of the Weightio plan-generation engine
(`functions/src/index.ts`, surfaced in the repository inside `web/src/types.ts`).

JavaScript numbers are modelled as rationals (`ℚ`); `Math.round` is
round-half-toward-plus-infinity; `number | undefined` becomes `Option ℚ`,
and JS truthiness tests on numbers (`!kg`) treat `none` and `some 0` as falsy.
`toFixed(n)` followed by unary plus is modelled as decimal rounding on `ℚ`.
-/

/- The Batteries implementation marks the `Rat` field operations `irreducible`,
which blocks kernel evaluation (`decide`) of concrete rational computations.
All proofs below still go through the kernel; we only restore the default
reducibility of these operations. -/
set_option allowUnsafeReducibility true in
attribute [semireducible] Rat.add Rat.sub Rat.mul Rat.div Rat.neg Rat.inv Rat.blt
  Rat.normalize Rat.maybeNormalize

namespace Weightio

/-- JS `Math.round`: round half toward +∞. -/
def jround (x : ℚ) : ℤ := ⌊x + 1/2⌋

/-- `clamp(n, min, max)` from the source. -/
def jclamp (n lo hi : ℚ) : ℚ := max lo (min hi n)

/-- JS falsiness of a `number | undefined` value (`undefined`, `0` and `NaN`
are falsy; `NaN` is not representable in this model). -/
def isFalsy : Option ℚ → Bool
  | none => true
  | some v => v == 0

/-- `+(x).toFixed(1)` modelled as rounding to 1 decimal place. -/
def round1 (x : ℚ) : ℚ := (jround (x * 10) : ℚ) / 10

/-- `+(x).toFixed(2)` modelled as rounding to 2 decimal places. -/
def round2 (x : ℚ) : ℚ := (jround (x * 100) : ℚ) / 100

inductive Sex | male | female
deriving DecidableEq, Repr

inductive Goal | fat_loss | lean_mass | strength | recomp | hypertrophy
deriving DecidableEq, Repr

inductive Experience | novice | intermediate | advanced
deriving DecidableEq, Repr

inductive Equipment | full_gym | dumbbells_only | bands_only | bodyweight_only
deriving DecidableEq, Repr

/-- The BMR `method` field of the index response. -/
inductive Method | mifflin | katch | override
deriving DecidableEq, Repr

structure Overrides where
  BMR : Option ℚ := none
  TDEE : Option ℚ := none
  BMI : Option ℚ := none
deriving DecidableEq, Repr

structure RecalcReq where
  sex : Option Sex
  age_range : String
  height_cm : Option ℚ := none
  weight_kg : Option ℚ := none
  bodyfat_pct : Option ℚ := none
  waist_cm : Option ℚ := none
  overrides : Overrides := {}
deriving DecidableEq, Repr

/-- JS `s.replace('-', '–')` with a string pattern replaces only the first
occurrence of `'-'`. -/
def replaceFirstDash : List Char → List Char
  | [] => []
  | c :: t => if c = '-' then '–' :: t else c :: replaceFirstDash t

def normalizeDash (s : String) : String := ⟨replaceFirstDash s.data⟩

/-- `mapAgeRangeToNumeric` from the source: fixed midpoint per age bucket,
unknown bucket defaults to 29. -/
def mapAgeRangeToNumeric (ar : String) : ℚ :=
  let s := normalizeDash ar
  if s = "<18" then 16
  else if s = "18–24" then 21
  else if s = "25–34" then 29
  else if s = "35–44" then 39
  else if s = "45–54" then 49
  else if s = "55–60" then 57
  else if s = ">60" then 65
  else 29

/-- `mifflin(sex, kg, cm, age)`: `Math.round(10*kg + 6.25*cm - 5*age ± sex offset)`,
`null` when any of `kg`, `cm`, `age` is falsy. -/
def mifflin (sex : Option Sex) (kg cm : Option ℚ) (age : ℚ) : Option ℚ :=
  if isFalsy kg || isFalsy cm || age == 0 then none
  else some ((jround (10 * kg.getD 0 + (625/100) * cm.getD 0 - 5 * age +
    (if sex = some Sex.male then 5 else -161)) : ℤ) : ℚ)

/-- `katch(kg, bodyfat_pct)`: `Math.round(370 + 21.6 * LBM)`; note the source
checks `bodyfat_pct == null` (so body fat `0` is accepted) but `!kg`. -/
def katch (kg bf : Option ℚ) : Option ℚ :=
  if isFalsy kg || bf = none then none
  else some ((jround (370 + (216/10) * (kg.getD 0 * (1 - bf.getD 0 / 100))) : ℤ) : ℚ)

/-- `computeFFMI`: lean mass over height squared to 1 decimal; `null` when
weight or height is falsy or body fat is `null`. -/
def computeFFMI (kg cm bf : Option ℚ) : Option ℚ :=
  if isFalsy kg || isFalsy cm || bf = none then none
  else
    let hm := cm.getD 0 / 100
    some (round1 ((kg.getD 0 * (1 - bf.getD 0 / 100)) / (hm * hm)))

/-- `ACTIVITY_BY_DAYS` table. -/
def activityByDays (d : ℤ) : Option ℚ :=
  if d = 1 then some (1375/1000)
  else if d = 2 then some (1375/1000)
  else if d = 3 then some (155/100)
  else if d = 4 then some (155/100)
  else if d = 5 then some (1725/1000)
  else if d = 6 then some (1725/1000)
  else none

/-- `activityMultiplier(days)`: table lookup at `clamp(floor(days), 1, 6)`,
defaulting to 1.55. -/
def activityMultiplier (days : ℚ) : ℚ :=
  (activityByDays ⌊jclamp (⌊days⌋ : ℚ) 1 6⌋).getD (155/100)

structure IndexOut where
  BMR : Option ℚ
  method : Method
  BMI : Option ℚ
  WHtR : Option ℚ
  FFMI : Option ℚ
deriving DecidableEq, Repr

/-- `computeIndexes` from the source: Katch preferred over Mifflin, an explicit
BMR override wins and is clamped to [800, 3000]; BMI override clamped to
[10, 60]; WHtR when waist and height are both truthy. -/
def computeIndexes (req : RecalcReq) : IndexOut :=
  let age := mapAgeRangeToNumeric req.age_range
  let kg := req.weight_kg
  let cm := req.height_cm
  let bf := req.bodyfat_pct
  let waist := req.waist_cm
  let bmrKatch := katch kg bf
  let bmrMifflin := mifflin req.sex kg cm age
  let ov := req.overrides
  let bm : Option ℚ × Method :=
    match ov.BMR with
    | some o => (some (jclamp o 800 3000), Method.override)
    | none =>
      match bmrKatch with
      | some k => (some k, Method.katch)
      | none =>
        match bmrMifflin with
        | some m => (some m, Method.mifflin)
        | none => (none, Method.mifflin)
  let bmi : Option ℚ :=
    match ov.BMI with
    | some o => some (jclamp o 10 60)
    | none =>
      if isFalsy kg || isFalsy cm then none
      else some (round1 (kg.getD 0 / ((cm.getD 0 / 100) * (cm.getD 0 / 100))))
  let whtr : Option ℚ :=
    if isFalsy waist || isFalsy cm then none
    else some (round2 (waist.getD 0 / cm.getD 0))
  { BMR := bm.1, method := bm.2, BMI := bmi, WHtR := whtr, FFMI := computeFFMI kg cm bf }

/-- `computeTDEE`: a TDEE override wins (clamped to [1200, 5000]); otherwise
`Math.round(BMR * activityMultiplier(days))`, `null` when BMR is falsy. -/
def computeTDEE (bmr : Option ℚ) (schedule_days : ℚ) (ov : Option ℚ) : Option ℚ :=
  match ov with
  | some o => some (jclamp o 1200 5000)
  | none =>
    if isFalsy bmr then none
    else some ((jround (bmr.getD 0 * activityMultiplier schedule_days) : ℤ) : ℚ)

/-- One emitted warning, modelling the string
"(label) override differs >15% from computed ((computed) vs (override))."
as a record carrying the field label and both values (JS float-to-string
rendering is not modelled). -/
structure Warning where
  label : String
  computed : ℚ
  ov : ℚ
deriving DecidableEq, Repr

/-- `detectOverrideWarnings(computed, override, label)`. -/
def detectOverrideWarnings (computed ov : Option ℚ) (label : String) : List Warning :=
  match computed, ov with
  | some c, some o => if |o - c| / c > 15/100 then [⟨label, c, o⟩] else []
  | _, _ => []

inductive Band | low | med | high | highest
deriving DecidableEq, Repr

/-- Position of a band on the ladder low < med < high < highest. -/
def Band.val : Band → ℕ
  | Band.low => 0
  | Band.med => 1
  | Band.high => 2
  | Band.highest => 3

/-- `accuracyBand`, factored over the six presence flags
(sex, weight, height, age range, body fat, waist) exactly as in the source. -/
def bandOfFlags (hSex hW hH hA hBf hWaist : Bool) : Band × Option String :=
  if hBf && hWaist && hH && hW && hA && hSex then (Band.highest, none)
  else if hBf && hH && hW && hA && hSex then
    (Band.high, if hWaist then none else some "waist_cm")
  else if hH && hW && hA && hSex then (Band.med, some "bodyfat_pct")
  else if hSex && (hW || hH) then
    (Band.low, if hH then some "weight_kg" else some "height_cm")
  else (Band.low, some "height_cm")

/-- `accuracyBand(req)`: `!!req.sex`, `weight_kg != null`, `height_cm != null`,
`!!req.age_range` (empty string falsy), `bodyfat_pct != null`, `waist_cm != null`. -/
def accuracyBand (r : RecalcReq) : Band × Option String :=
  bandOfFlags r.sex.isSome r.weight_kg.isSome r.height_cm.isSome
    (r.age_range != "") r.bodyfat_pct.isSome r.waist_cm.isSome

structure RecalcRes where
  BMR : Option ℚ
  method : Method
  TDEE : Option ℚ
  BMI : Option ℚ
  WHtR : Option ℚ
  FFMI : Option ℚ
  accuracy : Band
  next_best_input : Option String
  warnings : List Warning
deriving DecidableEq, Repr

/-- The `/recalculateIndexes` route: validation, then indices, TDEE with the
fixed schedule argument 3, accuracy band, and override warnings (note the
route passes the already-override-resolved BMR/TDEE/BMI as the "computed"
argument of `detectOverrideWarnings`). -/
def recalculateIndexes (req : RecalcReq) : Except String RecalcRes :=
  if req.sex = none || req.age_range = "" then
    Except.error "sex and age_range are required."
  else
    let idx := computeIndexes req
    let tdee := computeTDEE idx.BMR 3 req.overrides.TDEE
    let ab := accuracyBand req
    let warnings :=
      detectOverrideWarnings idx.BMR req.overrides.BMR "BMR" ++
      detectOverrideWarnings tdee req.overrides.TDEE "TDEE" ++
      detectOverrideWarnings idx.BMI req.overrides.BMI "BMI"
    Except.ok { BMR := idx.BMR, method := idx.method, TDEE := tdee, BMI := idx.BMI,
                WHtR := idx.WHtR, FFMI := idx.FFMI, accuracy := ab.1,
                next_best_input := ab.2, warnings := warnings }

/-! ### Concrete profiles used by the claims -/

/-- The C1 profile: male, 75 kg, 175 cm, age bucket 25–34, nothing else. -/
def c1Profile : RecalcReq :=
  { sex := some Sex.male, age_range := "25–34",
    height_cm := some 175, weight_kg := some 75 }

/-- The C3 failing input: the C1 profile plus a BMR override of 3000. -/
def c3Req : RecalcReq :=
  { sex := some Sex.male, age_range := "25–34",
    height_cm := some 175, weight_kg := some 75,
    overrides := { BMR := some 3000 } }

/-- A profile whose Mifflin BMR computes to exactly 0
(male, 6 kg, 2.4 cm, bucket `<18` → age 16: 60 + 15 − 80 + 5 = 0). -/
def c10ZeroReq : RecalcReq :=
  { sex := some Sex.male, age_range := "<18",
    weight_kg := some 6, height_cm := some (24/10) }

/-! ### C1 -/

/-- C1 counterexample: on the stated profile the index calculator does not
return BMR 1730 (the spec's arithmetic is wrong: the Mifflin expression
evaluates to 1703.75, which rounds to 1704). -/
theorem c1_spec_value_refuted : (computeIndexes c1Profile).BMR ≠ some 1730 := by
  decide

/-- C1 (amended): for sex=male, weight 75 kg, height 175 cm, age bucket 25–34
(mapped to 29), no body fat and no overrides, the index calculator returns the
Mifflin BMR `round(10×75 + 6.25×175 − 5×29 + 5)`, which equals exactly 1704. -/
theorem c1_mifflin_bmr_1704 :
    (computeIndexes c1Profile).BMR = some 1704 ∧
    (computeIndexes c1Profile).method = Method.mifflin ∧
    jround (10 * 75 + (625/100) * 175 - 5 * 29 + 5) = 1704 := by
  decide

/-! ### C3 -/

/-- C3 (code bug): with computed Mifflin BMR 1704 and a BMR override of 3000 —
a divergence of more than 15% of the computed value — the route emits no
warning at all, because it passes the already-overridden BMR as the "computed"
argument of `detectOverrideWarnings` (3000 vs 3000). -/
theorem c3_override_warning_never_fires :
    (recalculateIndexes c3Req).toOption.map RecalcRes.warnings = some [] ∧
    mifflin c3Req.sex c3Req.weight_kg c3Req.height_cm
      (mapAgeRangeToNumeric c3Req.age_range) = some 1704 ∧
    |(3000 : ℚ) - 1704| / 1704 > 15/100 := by
  decide

/-! ### C7 -/

/-- Monotonicity of the band ladder in the six flags, by exhaustive check. -/
theorem bandOfFlags_mono :
    ∀ s w h a bf ws sq wq hq aq bfq wsq : Bool,
      (s = true → sq = true) → (w = true → wq = true) → (h = true → hq = true) →
      (a = true → aq = true) → (bf = true → bfq = true) → (ws = true → wsq = true) →
      (bandOfFlags s w h a bf ws).1.val ≤ (bandOfFlags sq wq hq aq bfq wsq).1.val := by
  decide

/-- C7: the accuracy band is monotone in information completeness — if every
input field present in `p` is also present in `q`, the band of `q` is at least
the band of `p` on the ladder low < med < high < highest. Adding any
previously-missing field is the special case where `q` extends `p`. -/
theorem c7_accuracy_band_monotone (p q : RecalcReq)
    (hsex : p.sex.isSome = true → q.sex.isSome = true)
    (hw : p.weight_kg.isSome = true → q.weight_kg.isSome = true)
    (hh : p.height_cm.isSome = true → q.height_cm.isSome = true)
    (ha : (p.age_range != "") = true → (q.age_range != "") = true)
    (hbf : p.bodyfat_pct.isSome = true → q.bodyfat_pct.isSome = true)
    (hws : p.waist_cm.isSome = true → q.waist_cm.isSome = true) :
    (accuracyBand p).1.val ≤ (accuracyBand q).1.val :=
  bandOfFlags_mono _ _ _ _ _ _ _ _ _ _ _ _ hsex hw hh ha hbf hws

/-- C7 witness: a minimal profile against the full C1 profile extended with
body fat and waist. -/
theorem c7_witness :
    (accuracyBand { sex := some Sex.male, age_range := "" : RecalcReq }).1.val ≤
    (accuracyBand { sex := some Sex.male, age_range := "25–34",
                    height_cm := some 175, weight_kg := some 75,
                    bodyfat_pct := some 15, waist_cm := some 80 : RecalcReq }).1.val :=
  c7_accuracy_band_monotone _ _ (by decide) (by decide) (by decide) (by decide)
    (by decide) (by decide)

/-! ### C10 -/

/-- C10 counterexample: a profile whose Mifflin BMR computes to exactly 0 is
"computable" but JS-falsy, so the route returns TDEE `null` rather than
`round(0 × 1.55) = 0` as the claim states. -/
theorem c10_spec_refuted_at_zero_bmr :
    (computeIndexes c10ZeroReq).BMR = some 0 ∧
    c10ZeroReq.overrides.TDEE = none ∧
    (recalculateIndexes c10ZeroReq).toOption.map RecalcRes.TDEE = some none ∧
    some ((jround ((0 : ℚ) * (155/100)) : ℤ) : ℚ) ≠ (none : Option ℚ) := by
  decide

/-- C10 (amended): for every recalc request that passes validation, with a
computed BMR that is non-null and non-zero and no TDEE override, the returned
TDEE is `round(BMR × 1.55)` — the fixed 3-training-days multiplier. -/
theorem c10_tdee_uses_fixed_multiplier (req : RecalcReq) (b : ℚ)
    (hsex : req.sex ≠ none) (hage : req.age_range ≠ "")
    (hov : req.overrides.TDEE = none)
    (hbmr : (computeIndexes req).BMR = some b) (hb : b ≠ 0) :
    (recalculateIndexes req).toOption.map RecalcRes.TDEE =
      some (some ((jround (b * (155/100)) : ℤ) : ℚ)) := by
  unfold recalculateIndexes
  have hcond : (req.sex = none || req.age_range = "") = false := by
    simp only [Bool.or_eq_false_iff, decide_eq_false_iff_not]
    exact ⟨hsex, hage⟩
  rw [if_neg (by simp [hsex, hage])]
  have hmult : activityMultiplier 3 = 155/100 := by decide
  simp only [Except.toOption, Option.map, computeTDEE, hov, hbmr, isFalsy, hmult]
  have hb2 : (b == 0) = false := by simpa using hb
  simp [hb2]

/-- C10 witness: the C1 profile has computed BMR 1704 ≠ 0 and no TDEE
override; the route returns TDEE `round(1704 × 1.55) = 2641`. -/
theorem c10_witness :
    (recalculateIndexes c1Profile).toOption.map RecalcRes.TDEE =
      some (some ((jround ((1704 : ℚ) * (155/100)) : ℤ) : ℚ)) :=
  c10_tdee_uses_fixed_multiplier c1Profile 1704 (by decide) (by decide) (by decide)
    (by decide) (by decide)

/-! ## Sorting and string infrastructure

V8's `Array.prototype.sort` is a stable sort; for a comparator that induces a
total preorder, every stable sort produces the same output list, so we embed
each `.sort(cmp)` call of the source as a structural stable insertion sort
with `le a b = (cmp a b ≤ 0)`. -/

/-- Insert into a sorted list, keeping earlier (already-inserted) elements
first on ties — the stable position. -/
def insLe {α : Type} (le : α → α → Bool) (x : α) : List α → List α
  | [] => [x]
  | y :: t => if le x y then x :: y :: t else y :: insLe le x t

/-- Stable insertion sort: the embedding of JS `Array.prototype.sort`. -/
def jsort {α : Type} (le : α → α → Bool) : List α → List α
  | [] => []
  | x :: t => insLe le x (jsort le t)

theorem mem_insLe {α : Type} (le : α → α → Bool) (x a : α) :
    ∀ l : List α, a ∈ insLe le x l ↔ a = x ∨ a ∈ l
  | [] => by simp [insLe]
  | y :: t => by
    simp only [insLe]
    by_cases h : le x y = true
    · simp [h, List.mem_cons]
    · rw [if_neg h]
      simp only [List.mem_cons, mem_insLe le x a t]
      tauto

theorem mem_jsort {α : Type} (le : α → α → Bool) (a : α) :
    ∀ l : List α, a ∈ jsort le l ↔ a ∈ l
  | [] => by simp [jsort]
  | x :: t => by
    simp only [jsort, mem_insLe, List.mem_cons, mem_jsort le a t]

theorem pairwise_insLe {α : Type} {le : α → α → Bool}
    (total : ∀ a b, le a b || le b a) (trans : ∀ a b c, le a b → le b c → le a c)
    (x : α) : ∀ l : List α, l.Pairwise (fun a b => le a b = true) →
      (insLe le x l).Pairwise (fun a b => le a b = true)
  | [], _ => by simp [insLe]
  | y :: t, h => by
    rcases List.pairwise_cons.mp h with ⟨hyt, ht⟩
    simp only [insLe]
    by_cases hxy : le x y = true
    · rw [if_pos hxy]
      refine List.pairwise_cons.mpr ⟨?_, h⟩
      intro z hz
      rcases List.mem_cons.mp hz with rfl | hzt
      · exact hxy
      · exact trans x y z hxy (hyt z hzt)
    · rw [if_neg hxy]
      have hyx : le y x = true := by
        have h2 := total x y
        rcases Bool.or_eq_true_iff.mp h2 with h3 | h3
        · exact absurd h3 hxy
        · exact h3
      refine List.pairwise_cons.mpr ⟨?_, pairwise_insLe total trans x t ht⟩
      intro z hz
      rcases (mem_insLe le x z t).mp hz with rfl | hzt
      · exact hyx
      · exact hyt z hzt

theorem pairwise_jsort {α : Type} {le : α → α → Bool}
    (total : ∀ a b, le a b || le b a) (trans : ∀ a b c, le a b → le b c → le a c) :
    ∀ l : List α, (jsort le l).Pairwise (fun a b => le a b = true)
  | [] => by simp [jsort]
  | x :: t => pairwise_insLe total trans x _ (pairwise_jsort total trans t)

/-- The head of the stable sort is a minimum of the input list. -/
theorem jsort_head_min {α : Type} {le : α → α → Bool}
    (total : ∀ a b, le a b || le b a) (trans : ∀ a b c, le a b → le b c → le a c)
    (l : List α) (x : α) (h : (jsort le l).head? = some x) :
    x ∈ l ∧ ∀ y ∈ l, le x y = true := by
  have hpw := pairwise_jsort total trans l
  rcases hs : jsort le l with _ | ⟨a, t⟩
  · rw [hs] at h; simp at h
  · rw [hs] at h
    have hx : a = x := by simpa using h
    subst hx
    rw [hs] at hpw
    rcases List.pairwise_cons.mp hpw with ⟨hat, _⟩
    constructor
    · exact (mem_jsort le a l).mp (hs ▸ List.mem_cons_self a t)
    · intro y hy
      have hy2 : y ∈ jsort le l := (mem_jsort le y l).mpr hy
      rw [hs] at hy2
      rcases List.mem_cons.mp hy2 with rfl | hyt
      · have h2 := total y y
        rcases Bool.or_eq_true_iff.mp h2 with h3 | h3 <;> exact h3
      · exact hat y hyt

/-- ASCII lowercase of a character (JS `toLowerCase` restricted to ASCII;
catalog ids and names are ASCII). -/
def charToLower (c : Char) : Char :=
  if 'A' ≤ c ∧ c ≤ 'Z' then Char.ofNat (c.toNat + 32) else c

def strToLower (s : String) : String := ⟨s.data.map charToLower⟩

/-- Code-point lexicographic comparison on character lists, the model of
`localeCompare` returning ≤ 0. -/
def charListLE : List Char → List Char → Bool
  | [], _ => true
  | _ :: _, [] => false
  | a :: as, b :: bs => if a = b then charListLE as bs else decide (a < b)

def strLE (a b : String) : Bool := charListLE a.data b.data

theorem charListLE_total : ∀ a b : List Char, charListLE a b || charListLE b a
  | [], _ => by simp [charListLE]
  | _ :: _, [] => by simp [charListLE]
  | a :: as, b :: bs => by
    simp only [charListLE]
    by_cases hab : a = b
    · subst hab
      simp only [if_pos rfl]
      exact charListLE_total as bs
    · have hba : b ≠ a := fun h => hab h.symm
      rw [if_neg hab, if_neg hba]
      rcases lt_trichotomy a b with h | h | h
      · simp [h]
      · exact absurd h hab
      · simp [h]

theorem charListLE_trans : ∀ a b c : List Char,
    charListLE a b → charListLE b c → charListLE a c
  | [], _, _, _, _ => by simp [charListLE]
  | x :: xs, [], _, h1, _ => by simp [charListLE] at h1
  | x :: xs, y :: ys, [], _, h2 => by simp [charListLE] at h2
  | x :: xs, y :: ys, z :: zs, h1, h2 => by
    simp only [charListLE] at h1 h2 ⊢
    by_cases hxy : x = y
    · subst hxy
      rw [if_pos rfl] at h1
      by_cases hyz : x = z
      · subst hyz
        rw [if_pos rfl] at h2 ⊢
        exact charListLE_trans xs ys zs h1 h2
      · rw [if_neg hyz] at h2 ⊢
        exact h2
    · rw [if_neg hxy] at h1
      have hlt : x < y := by simpa using h1
      by_cases hyz : y = z
      · subst hyz
        rw [if_neg hxy]
        simpa using hlt
      · rw [if_neg hyz] at h2
        have hlt2 : y < z := by simpa using h2
        have hxz : x < z := lt_trans hlt hlt2
        rw [if_neg (ne_of_lt hxz)]
        simpa using hxz

theorem strLE_total (a b : String) : strLE a b || strLE b a :=
  charListLE_total a.data b.data

theorem strLE_trans (a b c : String) : strLE a b → strLE b c → strLE a c :=
  charListLE_trans a.data b.data c.data

/-- `startsWithChars needle hay`: `hay` begins with `needle`. -/
def startsWithChars : List Char → List Char → Bool
  | [], _ => true
  | _ :: _, [] => false
  | a :: as, b :: bs => a == b && startsWithChars as bs

def hasSubChars (needle : List Char) : List Char → Bool
  | [] => needle.isEmpty
  | c :: t => startsWithChars needle (c :: t) || hasSubChars needle t

/-- JS `hay.includes(needle)` on strings. -/
def strIncludes (hay needle : String) : Bool := hasSubChars needle.data hay.data

/-! ## Exercise selection (`chooseExercise`) -/

inductive Injury | shoulder | elbow | wrist | low_back | hip | knee | ankle
deriving DecidableEq, Repr

/-- `INJURY_AVOID` mapping from the source. -/
def INJURY_AVOID : Injury → List String
  | Injury.shoulder => ["ohp", "pike_pushup", "db_ohp", "handstand", "lateral_raise"]
  | Injury.elbow => ["triceps", "skullcrusher", "dips"]
  | Injury.wrist => ["pushup", "bench_press", "db_press"]
  | Injury.low_back => ["deadlift", "rdl", "back_squat", "hip_hinge"]
  | Injury.hip => ["deep_squat", "split_squat"]
  | Injury.knee => ["squat", "lunge", "leg_press", "step_up"]
  | Injury.ankle => ["calf_raises", "step_up", "jump"]

inductive Movement | compound | isolation
deriving DecidableEq, Repr

structure Exercise where
  id : String
  name : String
  muscles : List String
  equipment : List String
  movement : Movement
deriving DecidableEq, Repr

/-- `checkEquipmentCompatibility(exerciseEquipment, userEquipment)`. -/
def checkEquipmentCompatibility (exerciseEquipment : List String)
    (userEquipment : Equipment) : Bool :=
  match userEquipment with
  | Equipment.full_gym => true
  | Equipment.dumbbells_only =>
      exerciseEquipment.contains "dumbbell" || exerciseEquipment.contains "bodyweight"
  | Equipment.bands_only =>
      exerciseEquipment.contains "band" || exerciseEquipment.contains "bodyweight"
  | Equipment.bodyweight_only => exerciseEquipment.contains "bodyweight"

/-- The candidate filter of `chooseExercise`: targets the muscle, equipment
compatible, and neither the id nor the lowercased name contains any
avoid token of the user's injuries. -/
def exMatches (equipment : Equipment) (muscle : String) (injuries : List Injury)
    (e : Exercise) : Bool :=
  e.muscles.contains muscle &&
  (checkEquipmentCompatibility e.equipment equipment &&
   ((injuries.map INJURY_AVOID).flatten.all fun tok =>
      !(strIncludes e.id tok || strIncludes (strToLower e.name) tok)))

/-- The sort comparator of `chooseExercise`: compound before isolation, then
by name (`localeCompare`, modelled as code-point lexicographic order). -/
def exLE (a b : Exercise) : Bool :=
  match a.movement, b.movement with
  | Movement.compound, Movement.isolation => true
  | Movement.isolation, Movement.compound => false
  | _, _ => strLE a.name b.name

theorem exLE_total (a b : Exercise) : exLE a b || exLE b a := by
  unfold exLE
  cases a.movement <;> cases b.movement <;>
    first
      | rfl
      | exact strLE_total _ _

theorem exLE_trans (a b c : Exercise) : exLE a b → exLE b c → exLE a c := by
  unfold exLE
  cases a.movement <;> cases b.movement <;> cases c.movement <;> intro h1 h2 <;>
    first
      | rfl
      | exact strLE_trans _ _ _ h1 h2
      | exact absurd h1 Bool.false_ne_true
      | exact absurd h2 Bool.false_ne_true

/-- `chooseExercise`: filter, sort, pick the first, with the synthesized
fallback id when no candidate survives. -/
def chooseExercise (exercises : List Exercise) (equipment : Equipment)
    (muscle : String) (injuries : List Injury) : String :=
  let candidates := exercises.filter (exMatches equipment muscle injuries)
  match (jsort exLE candidates).head? with
  | some e => e.id
  | none => muscle ++ "_fallback_exercise"

/-- C8: exercise selection filters the catalog to exercises targeting the
muscle, equipment-compatible and free of injury avoid-tokens in id or
lowercased name; among survivors the chosen one is minimal for the
compound-first-then-name order; with no survivor the fallback id
`<muscle>_fallback_exercise` is returned. -/
theorem c8_choose_exercise (exercises : List Exercise) (equipment : Equipment)
    (muscle : String) (injuries : List Injury) :
    (∀ e, e ∈ exercises.filter (exMatches equipment muscle injuries) ↔
      (e ∈ exercises ∧ e.muscles.contains muscle = true ∧
       checkEquipmentCompatibility e.equipment equipment = true ∧
       ∀ tok ∈ (injuries.map INJURY_AVOID).flatten,
         strIncludes e.id tok = false ∧ strIncludes (strToLower e.name) tok = false)) ∧
    (exercises.filter (exMatches equipment muscle injuries) = [] →
      chooseExercise exercises equipment muscle injuries = muscle ++ "_fallback_exercise") ∧
    (exercises.filter (exMatches equipment muscle injuries) ≠ [] →
      ∃ e, e ∈ exercises.filter (exMatches equipment muscle injuries) ∧
        chooseExercise exercises equipment muscle injuries = e.id ∧
        ∀ f ∈ exercises.filter (exMatches equipment muscle injuries), exLE e f = true) := by
  refine ⟨?_, ?_, ?_⟩
  · intro e
    rw [List.mem_filter]
    unfold exMatches
    simp only [Bool.and_eq_true, List.all_eq_true, Bool.not_eq_true',
      Bool.or_eq_false_iff]
  · intro hnil
    unfold chooseExercise
    simp only [hnil]
    rfl
  · intro hne
    unfold chooseExercise
    rcases hcand : exercises.filter (exMatches equipment muscle injuries) with _ | ⟨c, cs⟩
    · exact absurd hcand hne
    · have hmem0 : c ∈ jsort exLE (c :: cs) := (mem_jsort exLE c (c :: cs)).mpr
        (List.mem_cons_self c cs)
      rcases hsrt : jsort exLE (c :: cs) with _ | ⟨a, t⟩
      · rw [hsrt] at hmem0; simp at hmem0
      · have hhead : (jsort exLE (c :: cs)).head? = some a := by rw [hsrt]; rfl
        have hmin := jsort_head_min exLE_total exLE_trans (c :: cs) a hhead
        refine ⟨a, hcand ▸ hmin.1, ?_, fun f hf => hmin.2 f (hcand ▸ hf)⟩
        simp only [hcand, hhead]

/-- C8 witness: a concrete two-exercise catalog for muscle "chest" — the
compound exercise is picked over the alphabetically-earlier isolation one. -/
theorem c8_witness :
    ∃ e, e ∈ ([⟨"a_fly", "A Fly", ["chest"], ["dumbbell"], Movement.isolation⟩,
               ⟨"bench_press", "Bench Press", ["chest"], ["barbell"], Movement.compound⟩]
        : List Exercise).filter (exMatches Equipment.full_gym "chest" []) ∧
      chooseExercise
        [⟨"a_fly", "A Fly", ["chest"], ["dumbbell"], Movement.isolation⟩,
         ⟨"bench_press", "Bench Press", ["chest"], ["barbell"], Movement.compound⟩]
        Equipment.full_gym "chest" [] = e.id ∧
      ∀ f ∈ ([⟨"a_fly", "A Fly", ["chest"], ["dumbbell"], Movement.isolation⟩,
              ⟨"bench_press", "Bench Press", ["chest"], ["barbell"], Movement.compound⟩]
          : List Exercise).filter (exMatches Equipment.full_gym "chest" []),
        exLE e f = true :=
  (c8_choose_exercise _ Equipment.full_gym "chest" []).2.2 (by decide)

/-! ## Workout generation -/

inductive RepStyle | hypertrophy | strength
deriving DecidableEq, Repr

/-- `goal === 'strength' ? 'strength' : 'hypertrophy'` used for the
`REP_RANGES` and `RIR_BY_EXPERIENCE` lookups. -/
def styleOf (g : Goal) : RepStyle :=
  if g = Goal.strength then RepStyle.strength else RepStyle.hypertrophy

/-- `REP_RANGES` table. -/
def REP_RANGES : RepStyle → Experience → ℕ × ℕ
  | RepStyle.hypertrophy, Experience.novice => (8, 12)
  | RepStyle.hypertrophy, Experience.intermediate => (6, 12)
  | RepStyle.hypertrophy, Experience.advanced => (5, 10)
  | RepStyle.strength, Experience.novice => (5, 6)
  | RepStyle.strength, Experience.intermediate => (3, 6)
  | RepStyle.strength, Experience.advanced => (2, 5)

/-- `SETS_BY_EXPERIENCE` table. -/
def SETS_BY_EXPERIENCE : Experience → ℚ × ℚ
  | Experience.novice => (8, 12)
  | Experience.intermediate => (12, 16)
  | Experience.advanced => (14, 20)

/-- `RIR_BY_EXPERIENCE` table. -/
def RIR_BY_EXPERIENCE : RepStyle → Experience → String
  | RepStyle.hypertrophy, Experience.novice => "2–3"
  | RepStyle.hypertrophy, Experience.intermediate => "1–2"
  | RepStyle.hypertrophy, Experience.advanced => "0–2"
  | RepStyle.strength, Experience.novice => "2"
  | RepStyle.strength, Experience.intermediate => "1–2"
  | RepStyle.strength, Experience.advanced => "0–1"

/-- `REST_TIMES` table. -/
def REST_TIMES : Experience → String
  | Experience.novice => "90–120s"
  | Experience.intermediate => "120–180s"
  | Experience.advanced => "2–3+ min"

/-- `PROGRESSION_HINTS` table. -/
def PROGRESSION_HINTS : Experience → String
  | Experience.novice => "If reps hit top, +5% next time"
  | Experience.intermediate => "If reps hit top, +2–2.5% or +1 rep"
  | Experience.advanced => "Microload +1–2%; add back-off set if fresh"

/-- `setsTarget(experience, goal)`: midpoint of the experience range, reduced
for strength (×0.8) and fat-loss (×0.85) goals, clamped to [6, 22]. -/
def setsTarget (experience : Experience) (goal : Goal) : ℚ :=
  let lo := (SETS_BY_EXPERIENCE experience).1
  let hi := (SETS_BY_EXPERIENCE experience).2
  let mid : ℚ := ((jround ((lo + hi) / 2) : ℤ) : ℚ)
  let mid := if goal = Goal.strength then ((jround (mid * (8/10)) : ℤ) : ℚ) else mid
  let mid := if goal = Goal.fat_loss then ((jround (mid * (85/100)) : ℤ) : ℚ) else mid
  jclamp mid 6 22

/-- The split table of `splitByDays`, keyed by the already-clamped day count. -/
def splitOf (d : ℤ) : List (ℕ × List String) :=
  if d ≤ 1 then
    [(1, ["chest", "back", "quads", "hams", "glutes", "shoulders", "triceps", "biceps", "core"])]
  else if d = 2 then
    [(1, ["chest", "upper_chest", "shoulders", "triceps", "core"]),
     (2, ["back", "lats", "quads", "hams", "glutes", "biceps", "rear_delts"])]
  else if d = 3 then
    [(1, ["chest", "upper_chest", "triceps"]),
     (2, ["back", "lats", "biceps", "rear_delts"]),
     (3, ["quads", "hams", "glutes", "calves"])]
  else if d = 4 then
    [(1, ["chest", "upper_chest", "shoulders", "triceps"]),
     (2, ["back", "lats", "biceps", "rear_delts"]),
     (3, ["chest", "upper_chest", "shoulders", "triceps"]),
     (4, ["quads", "hams", "glutes", "calves"])]
  else if d = 5 then
    [(1, ["chest", "upper_chest", "triceps"]),
     (2, ["back", "lats", "biceps", "rear_delts"]),
     (3, ["quads", "hams", "glutes", "calves"]),
     (4, ["chest", "shoulders", "triceps"]),
     (5, ["back", "lats", "rear_delts"])]
  else
    [(1, ["chest", "upper_chest", "triceps"]),
     (2, ["back", "lats", "biceps", "rear_delts"]),
     (3, ["quads", "hams", "glutes", "calves"]),
     (4, ["chest", "upper_chest", "triceps"]),
     (5, ["back", "lats", "biceps", "rear_delts"]),
     (6, ["quads", "hams", "glutes", "calves"])]

/-- `splitByDays(days)`: clamp `Math.floor(days)` to [1, 7] and look up. -/
def splitByDays (days : ℚ) : List (ℕ × List String) :=
  splitOf ⌊jclamp ((⌊days⌋ : ℤ) : ℚ) 1 7⌋

/-- The per-day per-muscle set count of `buildWorkouts`:
`Math.max(3, Math.round(targetSetsPerMuscle / (totalMusclesPerWeek / split.length)))`. -/
def spmOfSplit (split : List (ℕ × List String)) (e : Experience) (g : Goal) : ℤ :=
  max 3 (jround (setsTarget e g /
    (((split.map fun s => ((s.2.length : ℤ) : ℚ)).sum) / ((split.length : ℤ) : ℚ))))

def setsPerMuscle (days : ℚ) (e : Experience) (g : Goal) : ℤ :=
  spmOfSplit (splitByDays days) e g

structure WorkoutBlock where
  muscle : String
  exerciseId : String
  musclesWorked : List String
  sets : ℤ
  reps : String
  rir : String
  rir_hint : String
  rest_hint : String
  progression_hint : String
  alt_compact : Bool
deriving DecidableEq, Repr

structure DayPlan where
  day : ℕ
  blocks : List WorkoutBlock
deriving DecidableEq, Repr

/-- The `selectedExercises` map of `buildWorkouts`: a JS `Map` keyed by
exercise id, in insertion order, merging muscles assigned to the same
exercise. -/
def insertSelected (m : List (String × List String)) (exId muscle : String) :
    List (String × List String) :=
  if m.any fun ent => ent.1 == exId then
    m.map fun ent => if ent.1 == exId then (ent.1, ent.2 ++ [muscle]) else ent
  else m ++ [(exId, [muscle])]

/-- One day of `buildWorkouts`: choose an exercise per muscle, merge
duplicates, then emit one block per selected exercise. -/
def buildDay (exercises : List Exercise) (equipment : Equipment)
    (injuries : List Injury) (spm : ℤ) (rr : ℕ × ℕ) (rir rest prog : String)
    (day : ℕ) (muscles : List String) : DayPlan :=
  let selected := muscles.foldl
    (fun m muscle =>
      insertSelected m (chooseExercise exercises equipment muscle injuries) muscle) []
  { day := day,
    blocks := selected.map fun ent =>
      { muscle := ent.2.headD "", exerciseId := ent.1, musclesWorked := ent.2,
        sets := spm, reps := toString rr.1 ++ "–" ++ toString rr.2,
        rir := rir, rir_hint := "RIR " ++ rir ++ "; rest " ++ rest,
        rest_hint := rest, progression_hint := prog, alt_compact := true } }

/-- `buildWorkouts(days, experience, goal, equipment, injuries)` over an
explicit exercise catalog. -/
def buildWorkouts (days : ℚ) (experience : Experience) (goal : Goal)
    (equipment : Equipment) (injuries : List Injury)
    (exercises : List Exercise) : List DayPlan :=
  let split := splitByDays days
  let spm := setsPerMuscle days experience goal
  let rr := REP_RANGES (styleOf goal) experience
  let rir := RIR_BY_EXPERIENCE (styleOf goal) experience
  let rest := REST_TIMES experience
  let prog := PROGRESSION_HINTS experience
  split.map fun s => buildDay exercises equipment injuries spm rr rir rest prog s.1 s.2

/-- The clamped day key of `splitByDays` lies in [1, 7]. -/
theorem splitDays_key_bounds (days : ℚ) :
    1 ≤ ⌊jclamp ((⌊days⌋ : ℤ) : ℚ) 1 7⌋ ∧ ⌊jclamp ((⌊days⌋ : ℤ) : ℚ) 1 7⌋ ≤ 7 := by
  constructor
  · exact Int.le_floor.mpr (by exact_mod_cast le_max_left (1 : ℚ) _)
  · have h7 : jclamp ((⌊days⌋ : ℤ) : ℚ) 1 7 ≤ 7 :=
      max_le (by norm_num) (min_le_left _ _)
    calc ⌊jclamp ((⌊days⌋ : ℤ) : ℚ) 1 7⌋ ≤ ⌊(7 : ℚ)⌋ := Int.floor_le_floor h7
    _ = 7 := by norm_num

/-- Exhaustive bound check of the per-muscle set count for every legal split
key, experience and goal. -/
theorem spmOfSplit_bounds (d : ℤ) (h1 : 1 ≤ d) (h7 : d ≤ 7)
    (e : Experience) (g : Goal) :
    3 ≤ spmOfSplit (splitOf d) e g ∧ spmOfSplit (splitOf d) e g ≤ 22 := by
  interval_cases d <;> cases e <;> cases g <;> decide

theorem repRange_le (st : RepStyle) (e : Experience) :
    (REP_RANGES st e).1 ≤ (REP_RANGES st e).2 := by
  cases st <;> cases e <;> decide

/-- C6: every block of every generated workout day has `sets` in [3, 22] and
`reps` formatted `"{lo}–{hi}"` with lo ≤ hi. -/
theorem c6_sets_and_reps_bounds (days : ℚ) (experience : Experience) (goal : Goal)
    (equipment : Equipment) (injuries : List Injury) (exercises : List Exercise)
    (dp : DayPlan)
    (hdp : dp ∈ buildWorkouts days experience goal equipment injuries exercises)
    (b : WorkoutBlock) (hb : b ∈ dp.blocks) :
    (3 ≤ b.sets ∧ b.sets ≤ 22) ∧
    ∃ lo hi : ℕ, lo ≤ hi ∧ b.reps = toString lo ++ "–" ++ toString hi := by
  rcases List.mem_map.mp hdp with ⟨s, _, hdp2⟩
  subst hdp2
  rcases List.mem_map.mp hb with ⟨ent, _, hb2⟩
  subst hb2
  constructor
  · rcases splitDays_key_bounds days with ⟨hk1, hk7⟩
    exact spmOfSplit_bounds _ hk1 hk7 experience goal
  · exact ⟨(REP_RANGES (styleOf goal) experience).1,
      (REP_RANGES (styleOf goal) experience).2,
      repRange_le _ _, rfl⟩

/-- The concrete first day and block for the C6 witness: 3 training days,
novice, recomp, full gym, no injuries, empty catalog (fallback ids). -/
def c6Day : DayPlan :=
  (buildWorkouts 3 Experience.novice Goal.recomp Equipment.full_gym [] []).headD
    ⟨0, []⟩

def c6Block : WorkoutBlock :=
  c6Day.blocks.headD
    ⟨"", "", [], 0, "", "", "", "", "", false⟩

/-- C6 witness: the first block of the first generated day at a concrete
input satisfies the bounds. -/
theorem c6_witness :
    (3 ≤ c6Block.sets ∧ c6Block.sets ≤ 22) ∧
    ∃ lo hi : ℕ, lo ≤ hi ∧ c6Block.reps = toString lo ++ "–" ++ toString hi :=
  c6_sets_and_reps_bounds 3 Experience.novice Goal.recomp Equipment.full_gym [] []
    c6Day (by decide) c6Block (by decide)

/-! ## Adaptation engine (`/adaptPlan`)

The route deep-copies the loosely-typed plan and mutates it; here the plan is
a value, so the deep copy is implicit. Change-log strings are modelled as a
tagged inductive carrying the same data (JS number-to-string rendering is not
modelled). -/

structure ABlock where
  muscle : String
  sets : ℚ
  rir : String
deriving DecidableEq, Repr

structure AWorkout where
  blocks : List ABlock
deriving DecidableEq, Repr

structure APlan where
  workouts : List AWorkout
  kcal : Option ℚ
deriving DecidableEq, Repr

structure Readiness where
  sleep_h : ℚ
  soreness : List (String × ℚ)
  stress : ℚ
  motivation : ℚ
deriving DecidableEq, Repr

inductive ChangeEntry
  | sorenessCut (region : String) (score : ℚ)
  | globalFatigue
  | kcalDown
  | kcalUp
  | lowAdherence
deriving DecidableEq, Repr

/-- `Number(b.sets) || 3`: a sets value of 0 falls back to 3. -/
def setsOr3 (s : ℚ) : ℚ := if s = 0 then 3 else s

/-- `String(b.muscle).includes(region) || String(region).includes(b.muscle)`. -/
def muscleMatches (muscle region : String) : Bool :=
  strIncludes muscle region || strIncludes region muscle

/-- Rule 1 body for one soreness entry with score ≥ 4. -/
def applySorenessCut (ws : List AWorkout) (region : String) : List AWorkout :=
  ws.map fun w =>
    { blocks := w.blocks.map fun b =>
        if muscleMatches b.muscle region then
          { b with sets := max 1 (setsOr3 b.sets - 1) }
        else b }

/-- The `/adaptPlan` rules, in source order: (1) per-region soreness ≥ 4 cuts
one set (floor 1) on matching blocks; (2) stress ≥ 4 and motivation ≤ 2 caps
RIR at "2" and multiplies sets by 0.9 (rounded, floor 1); (3) weight trend
adjusts kcal ±5% when the rounded value actually changes (skipped when kcal
is absent or 0, i.e. falsy); (4) adherence < 60% multiplies sets by 0.85
(rounded, floor 1). -/
def adaptPlan (current_plan : APlan) (readiness : Readiness)
    (last_week_adherence_pct : Option ℚ) (weight_trend_2w : Option String) :
    APlan × List ChangeEntry :=
  let step1 := readiness.soreness.foldl
    (fun (acc : List AWorkout × List ChangeEntry) ent =>
      if ent.2 ≥ 4 then
        (applySorenessCut acc.1 ent.1, acc.2 ++ [ChangeEntry.sorenessCut ent.1 ent.2])
      else acc)
    (current_plan.workouts, [])
  let step2 :=
    if readiness.stress ≥ 4 ∧ readiness.motivation ≤ 2 then
      (step1.1.map fun w =>
        { blocks := w.blocks.map fun b =>
            { b with rir := "2",
                     sets := max 1 ((jround (setsOr3 b.sets * (9/10)) : ℤ) : ℚ) } },
       step1.2 ++ [ChangeEntry.globalFatigue])
    else step1
  let step3 : Option ℚ × List ChangeEntry :=
    match current_plan.kcal with
    | some kc =>
      if kc = 0 then (some kc, step2.2)
      else if weight_trend_2w = some "above" then
        let nk : ℚ := ((jround (kc * (95/100)) : ℤ) : ℚ)
        if nk ≠ kc then (some nk, step2.2 ++ [ChangeEntry.kcalDown]) else (some kc, step2.2)
      else if weight_trend_2w = some "below" then
        let nk : ℚ := ((jround (kc * (105/100)) : ℤ) : ℚ)
        if nk ≠ kc then (some nk, step2.2 ++ [ChangeEntry.kcalUp]) else (some kc, step2.2)
      else (some kc, step2.2)
    | none => (none, step2.2)
  let step4 :=
    if last_week_adherence_pct.getD 100 < 60 then
      (step2.1.map fun w =>
        { blocks := w.blocks.map fun b =>
            { b with sets := max 1 ((jround (setsOr3 b.sets * (85/100)) : ℤ) : ℚ) } },
       step3.2 ++ [ChangeEntry.lowAdherence])
    else (step2.1, step3.2)
  ({ workouts := step4.1, kcal := step3.1 }, step4.2)

/-- The C9 counterexample plan: one block whose sets value is 0. -/
def c9Plan : APlan :=
  { workouts := [⟨[⟨"chest", 0, "1–2"⟩]⟩], kcal := none }

def c9Readiness : Readiness :=
  { sleep_h := 8, soreness := [("chest", 4)], stress := 0, motivation := 5 }

/-- C9 counterexample: on a matching block with sets 0 the first application
sets the value to 2 (because `Number(b.sets) || 3` treats 0 as 3), not to
`max 1 (0 − 1) = 1` as a per-application decrement of 1 with floor 1 would. -/
theorem c9_decrement_refuted_at_zero_sets :
    (adaptPlan c9Plan c9Readiness none none).1.workouts =
      [⟨[⟨"chest", 2, "1–2"⟩]⟩] ∧
    (2 : ℚ) ≠ max 1 ((0 : ℚ) - 1) := by
  constructor
  · decide
  · decide

theorem max_one_cut_twice (x : ℚ) :
    max 1 (setsOr3 (max 1 (setsOr3 x - 1)) - 1) = max 1 (setsOr3 x - 2) := by
  have h1 : (max 1 (setsOr3 x - 1) : ℚ) ≠ 0 := by
    have : (1 : ℚ) ≤ max 1 (setsOr3 x - 1) := le_max_left _ _
    intro h
    rw [h] at this
    norm_num at this
  rw [show setsOr3 (max 1 (setsOr3 x - 1)) = max 1 (setsOr3 x - 1) from if_neg h1]
  rcases le_total (setsOr3 x - 1) 1 with h | h
  · rw [max_eq_left h]
    have h2 : setsOr3 x - 2 ≤ 1 := by linarith
    rw [max_eq_left h2]
    norm_num
  · rw [max_eq_right h]
    ring_nf

/-- C9 (amended): for a readiness signal whose soreness map is a single
region with score ≥ 4 and which triggers neither the global-fatigue rule
(stress ≥ 4 and motivation ≤ 2) nor the low-adherence rule (< 60%), each
`adaptPlan` application maps a matching block's sets `s` to
`max 1 ((s or 3 when s = 0) − 1)`; two applications therefore cut two sets
down to the floor of 1 — the rules do not converge after the first call. -/
theorem c9_adapt_twice_cuts_twice (plan : APlan) (r : Readiness)
    (region : String) (score : ℚ) (adh : Option ℚ) (tr : Option String)
    (hsor : r.soreness = [(region, score)]) (hscore : score ≥ 4)
    (hglob : ¬(r.stress ≥ 4 ∧ r.motivation ≤ 2))
    (hadh : ¬(adh.getD 100 < 60)) :
    (adaptPlan (adaptPlan plan r adh tr).1 r adh tr).1.workouts =
      plan.workouts.map (fun w =>
        { blocks := w.blocks.map fun b =>
            if muscleMatches b.muscle region then
              { b with sets := max 1 (setsOr3 b.sets - 2) }
            else b }) ∧
    (adaptPlan plan r adh tr).1.workouts =
      plan.workouts.map (fun w =>
        { blocks := w.blocks.map fun b =>
            if muscleMatches b.muscle region then
              { b with sets := max 1 (setsOr3 b.sets - 1) }
            else b }) := by
  have hone : ∀ p : APlan, (adaptPlan p r adh tr).1.workouts =
      applySorenessCut p.workouts region := by
    intro p
    unfold adaptPlan
    simp only [hsor, List.foldl_cons, List.foldl_nil, if_pos hscore, if_neg hglob,
      if_neg hadh]
  have happ : ∀ p : APlan, applySorenessCut p.workouts region =
      p.workouts.map (fun w =>
        { blocks := w.blocks.map fun b =>
            if muscleMatches b.muscle region then
              { b with sets := max 1 (setsOr3 b.sets - 1) }
            else b }) := fun p => rfl
  refine ⟨?_, (hone plan).trans (happ plan)⟩
  rw [hone, happ]
  rw [hone, happ]
  rw [List.map_map]
  apply List.map_congr_left
  intro w _
  simp only [Function.comp]
  congr 1
  rw [List.map_map]
  apply List.map_congr_left
  intro b _
  simp only [Function.comp]
  by_cases hm : muscleMatches b.muscle region = true
  · simp [hm, max_one_cut_twice b.sets]
  · simp [hm]

/-- C9 witness: a concrete plan with sets 10 on a matching block goes to 9
after one application and 8 after two. -/
theorem c9_witness :
    (adaptPlan (adaptPlan ⟨[⟨[⟨"chest", 10, "1–2"⟩]⟩], some 2500⟩
        ⟨8, [("chest", 5)], 0, 5⟩ none none).1
      ⟨8, [("chest", 5)], 0, 5⟩ none none).1.workouts =
      ([⟨[⟨"chest", 10, "1–2"⟩]⟩] : List AWorkout).map (fun w =>
        { blocks := w.blocks.map fun b =>
            if muscleMatches b.muscle "chest" then
              { b with sets := max 1 (setsOr3 b.sets - 2) }
            else b }) ∧
    (adaptPlan ⟨[⟨[⟨"chest", 10, "1–2"⟩]⟩], some 2500⟩
        ⟨8, [("chest", 5)], 0, 5⟩ none none).1.workouts =
      ([⟨[⟨"chest", 10, "1–2"⟩]⟩] : List AWorkout).map (fun w =>
        { blocks := w.blocks.map fun b =>
            if muscleMatches b.muscle "chest" then
              { b with sets := max 1 (setsOr3 b.sets - 1) }
            else b }) :=
  c9_adapt_twice_cuts_twice ⟨[⟨[⟨"chest", 10, "1–2"⟩]⟩], some 2500⟩
    ⟨8, [("chest", 5)], 0, 5⟩ "chest" 5 none none rfl (by norm_num)
    (by norm_num) (by norm_num)

/-! ## Meal allocator (beam search)

The source draws from the global, unseeded `Math.random()`. A shallow
embedding must make that source explicit: `Rng` is a stream of draws
(each in `[0, 1)`) with a cursor, threaded through the allocator exactly
where the source calls `Math.random()`. -/

structure Rng where
  f : ℕ → ℚ
  k : ℕ

def Rng.next (r : Rng) : ℚ × Rng := (r.f r.k, ⟨r.f, r.k + 1⟩)

structure PortionMeta where
  unit : Option String := none
  typical_g : Option ℚ := none
  min_g : Option ℚ := none
  max_g : Option ℚ := none
  step_g : Option ℚ := none
  grams_per_piece : Option ℚ := none
  min_pieces : Option ℚ := none
  max_pieces : Option ℚ := none
  step_pieces : Option ℚ := none
deriving DecidableEq, Repr

structure MacroPer100 where
  kcal : ℚ
  p : ℚ
  c : ℚ
  f : ℚ
deriving DecidableEq, Repr

structure IngredientDoc where
  id : Option String := none
  name : String
  category : String
  macro_per_100g : MacroPer100
  typical_portion_g : Option ℚ := none
  budget_tier : String := "medium"
  portion : Option PortionMeta := none
deriving DecidableEq, Repr

/-- A resolved portion; the `"{pcs} pcs"` label is modelled by its numeric
piece count. -/
structure PortionCandidate where
  grams : ℚ
  p : ℚ
  c : ℚ
  f : ℚ
  kcal : ℚ
  label : Option ℚ := none
deriving DecidableEq, Repr

/-- `qRound(n, step) = Math.round(n / step) * step`. -/
def qRound (n step : ℚ) : ℚ := ((jround (n / step) : ℤ) : ℚ) * step

/-- The piece-count loop `for (pcs = minP; pcs <= maxP; pcs += stepP)`.
A non-positive step would not terminate in JS and yields no candidates. -/
def pieceCounts (minP maxP stepP : ℚ) : List ℚ :=
  if 0 < stepP ∧ minP ≤ maxP then
    (List.range (⌊(maxP - minP) / stepP⌋.toNat + 1)).map fun k => minP + k * stepP
  else []

/-- `portionCandidates(ing)`: discrete piece sizing when the portion is
piece-based (with truthy grams-per-piece), else gram candidates at
{0.75, 1.0, 1.25, 1.5} × typical, snapped to the step and clamped, deduplicated
and sorted ascending. -/
def portionCandidates (ing : IngredientDoc) : List PortionCandidate :=
  let m := ing.macro_per_100g
  let pm := ing.portion.getD {}
  let typical := pm.typical_g.getD (ing.typical_portion_g.getD 100)
  let unit := pm.unit.getD "g"
  if unit = "piece" ∧ isFalsy pm.grams_per_piece = false then
    let gpp := pm.grams_per_piece.getD 0
    let minP := pm.min_pieces.getD 1
    let maxP := pm.max_pieces.getD 3
    let stepP := pm.step_pieces.getD 1
    (pieceCounts minP maxP stepP).map fun pcs =>
      let g := pcs * gpp
      { grams := g, p := m.p * g / 100, c := m.c * g / 100, f := m.f * g / 100,
        kcal := m.kcal * g / 100, label := some pcs }
  else
    let minG := pm.min_g.getD (max 50 ((⌊typical * (5/10)⌋ : ℤ) : ℚ))
    let maxG := pm.max_g.getD (min 300 ((⌈typical * 2⌉ : ℤ) : ℚ))
    let stepG := pm.step_g.getD 10
    let raw := jsort (fun a b => decide (a ≤ b))
      ((([(75/100), 1, (125/100), (15/10)] : List ℚ).map fun x =>
        jclamp (qRound (typical * x) stepG) minG maxG).dedup)
    raw.map fun g =>
      { grams := g, p := m.p * g / 100, c := m.c * g / 100, f := m.f * g / 100,
        kcal := m.kcal * g / 100, label := none }

/-- `scoreCombo` with the default kcal penalty 0.05. -/
def scoreCombo (totP totC totF targetP targetC targetF targetK : ℚ) : ℚ :=
  let eP := |totP - targetP|
  let eC := |totC - targetC|
  let eF := |totF - targetF|
  let kcal := totP * 4 + totC * 4 + totF * 9
  let eK := |kcal - targetK|
  (12/10) * eP + 1 * eC + (8/10) * eF + (5/100) * eK

def cartesian {α : Type} (a b : List α) : List (α × α) :=
  a.flatMap fun i => b.map fun j => (i, j)

/-- The ordered pairs `i < j` of the double loop in the pair branch. -/
def pairsOf {α : Type} : List α → List (α × α)
  | [] => []
  | x :: t => (t.map fun y => (x, y)) ++ pairsOf t

structure Item where
  ingredientId : String
  name : String
  grams : ℚ
  label : Option ℚ
  p : ℚ
  c : ℚ
  f : ℚ
  kcal : ℚ
  category : String
deriving DecidableEq, Repr

structure MealCombo where
  items : List Item
  totP : ℚ
  totC : ℚ
  totF : ℚ
  totK : ℚ
  score : ℚ
deriving DecidableEq, Repr

structure Targets where
  Ppm : ℚ
  Cpm : ℚ
  Fpm : ℚ
  Kpm : ℚ
deriving DecidableEq, Repr

/-- JS array destructuring swap at in-bounds positions. -/
def swapIdx {α : Type} (l : List α) (i j : ℕ) : List α :=
  match l[i]?, l[j]? with
  | some a, some b => (l.set i b).set j a
  | _, _ => l

/-- Fisher–Yates: `for (i = len−1; i > 0; i--) { j = floor(rand()*(i+1)); swap }`. -/
def shuffleStep {α : Type} : ℕ → List α × Rng → List α × Rng
  | 0, acc => acc
  | Nat.succ n, (l, rng) =>
    let (r, rng2) := rng.next
    let j := (⌊r * ((n + 2 : ℕ) : ℚ)⌋).toNat
    shuffleStep n (swapIdx l (Nat.succ n) j, rng2)

def jshuffle {α : Type} (l : List α) (rng : Rng) : List α × Rng :=
  shuffleStep (l.length - 1) (l, rng)

/-- One `pcands` entry: portion candidates sorted by closeness of the
category macro to that category's per-meal target, best 4 kept. -/
def pcandsFor (Ppm Cpm Fpm : ℚ) (cat : String) (ing : IngredientDoc) :
    List (IngredientDoc × PortionCandidate) :=
  let targetPer100 := if cat = "protein" then Ppm else if cat = "carb" then Cpm
    else if cat = "fat" then Fpm else 0
  let sortKey := fun (pc : PortionCandidate) =>
    |(if cat = "protein" then pc.p else if cat = "carb" then pc.c
      else if cat = "fat" then pc.f else 0) - targetPer100|
  ((jsort (fun a b => decide (sortKey a ≤ sortKey b)) (portionCandidates ing)).take 4).map
    fun pc => (ing, pc)

/-- The `pcands` record built over the four category pools in source order;
a later assignment to the same name overwrites an earlier one. -/
def pcandsAssoc (pool : String → List IngredientDoc) (Ppm Cpm Fpm : ℚ) :
    List (String × List (IngredientDoc × PortionCandidate)) :=
  (["protein", "carb", "veg", "fat"].map fun cat =>
    (pool cat).map fun ing => (ing.name, pcandsFor Ppm Cpm Fpm cat ing)).flatten

/-- `pcands[name] || []` after all assignments: the last write wins. -/
def pcandsGet (assoc : List (String × List (IngredientDoc × PortionCandidate)))
    (name : String) : List (IngredientDoc × PortionCandidate) :=
  ((assoc.filter fun ent => ent.1 == name).getLast?).elim [] Prod.snd

/-- The ranking key source `macroGetter` of `extendBeams`
(`ing.typical_portion_g || 100` is a truthiness default). -/
def macroGetter (cat : String) (ing : IngredientDoc) : ℚ :=
  let m := ing.macro_per_100g
  let portion := if isFalsy ing.typical_portion_g then (100 : ℚ)
    else ing.typical_portion_g.getD 100
  if cat = "protein" then m.p * portion / 100
  else if cat = "carb" then m.c * portion / 100
  else if cat = "fat" then m.f * portion / 100
  else 0

def mkItem (ing : IngredientDoc) (pc : PortionCandidate) : Item :=
  { ingredientId := ing.id.getD ing.name, name := ing.name, grams := pc.grams,
    label := pc.label, p := pc.p, c := pc.c, f := pc.f, kcal := pc.kcal,
    category := ing.category }

/-- Push a beam extended by the given items, with the incremental totals and
the score against the (per-meal) targets. -/
def addItems (tg : Targets) (beam : MealCombo) (its : List Item) : MealCombo :=
  let totP := beam.totP + (its.map Item.p).sum
  let totC := beam.totC + (its.map Item.c).sum
  let totF := beam.totF + (its.map Item.f).sum
  let totK := beam.totK + (its.map Item.kcal).sum
  { items := beam.items ++ its, totP := totP, totC := totC, totF := totF,
    totK := totK, score := scoreCombo totP totC totF tg.Ppm tg.Cpm tg.Fpm tg.Kpm }

def hasIngredient (beam : MealCombo) (name : String) : Bool :=
  beam.items.any fun it => it.name == name

/-- The single-item extensions of one beam. -/
def singleExts (tg : Targets)
    (pcA : List (String × List (IngredientDoc × PortionCandidate)))
    (beam : MealCombo) (choices : List IngredientDoc) : List MealCombo :=
  (choices.filter fun ing => !hasIngredient beam ing.name).flatMap fun ing =>
    (pcandsGet pcA ing.name).map fun pr => addItems tg beam [mkItem ing pr.2]

/-- The distinct-pair extensions of one beam (`j = i + 1` onward). -/
def pairExts (tg : Targets)
    (pcA : List (String × List (IngredientDoc × PortionCandidate)))
    (beam : MealCombo) (choices : List IngredientDoc) : List MealCombo :=
  ((pairsOf choices).filter fun ab =>
      !(hasIngredient beam ab.1.name || hasIngredient beam ab.2.name)).flatMap fun ab =>
    (cartesian (pcandsGet pcA ab.1.name) (pcandsGet pcA ab.2.name)).map fun prs =>
      addItems tg beam [mkItem ab.1 prs.1.2, mkItem ab.2 prs.2.2]

/-- One `k` iteration of the beam loop: `k = 0` passes the beam through
(before any draw); otherwise one `Math.random()` draw picks the
variety pool, then singles (k ≥ 1) and pairs (k ≥ 2) are pushed. -/
def extForK (tg : Targets)
    (pcA : List (String × List (IngredientDoc × PortionCandidate)))
    (ranked shuffled : List IngredientDoc) (poolLen : ℕ)
    (beam : MealCombo) (k : ℕ) (rng : Rng) : List MealCombo × Rng :=
  if k = 0 then ([beam], rng)
  else
    let (r, rng2) := rng.next
    let useShuffled := decide (r < 3/5)
    let choices := (if useShuffled then shuffled else ranked).take (min 20 poolLen)
    let s := singleExts tg pcA beam choices
    let pr := if 2 ≤ k then pairExts tg pcA beam choices else []
    (s ++ pr, rng2)

def kList (kMin kMax : ℕ) : List ℕ := (List.range (kMax + 1 - kMin)).map (· + kMin)

def extForBeam (tg : Targets)
    (pcA : List (String × List (IngredientDoc × PortionCandidate)))
    (ranked shuffled : List IngredientDoc) (poolLen : ℕ) (kMin kMax : ℕ)
    (beam : MealCombo) (rng : Rng) : List MealCombo × Rng :=
  (kList kMin kMax).foldl
    (fun acc k =>
      let st := extForK tg pcA ranked shuffled poolLen beam k acc.2
      (acc.1 ++ st.1, st.2))
    ([], rng)

def extAll (tg : Targets)
    (pcA : List (String × List (IngredientDoc × PortionCandidate)))
    (ranked shuffled : List IngredientDoc) (poolLen : ℕ) (kMin kMax : ℕ)
    (beams : List MealCombo) (rng : Rng) : List MealCombo × Rng :=
  beams.foldl
    (fun acc beam =>
      let st := extForBeam tg pcA ranked shuffled poolLen kMin kMax beam acc.2
      (acc.1 ++ st.1, st.2))
    ([], rng)

/-- The sort comparator of the beam cut: score ascending, ties toward fewer
items. -/
def comboLE (x y : MealCombo) : Bool :=
  if x.score = y.score then decide (x.items.length ≤ y.items.length)
  else decide (x.score ≤ y.score)

/-- `extendBeams`: rank the pool by closeness to the category target, shuffle
a copy for variety, expand every beam for each allowed k, then keep the best
`beamSize` combos. -/
def extendBeams (pool : String → List IngredientDoc)
    (pcA : List (String × List (IngredientDoc × PortionCandidate)))
    (dailyTg : Targets) (beams : List MealCombo) (cat : String)
    (kMin kMax beamSize : ℕ) (mealTargets : Option Targets) (rng : Rng) :
    List MealCombo × Rng :=
  let ingList := pool cat
  let targets := mealTargets.getD dailyTg
  let targetMacro := if cat = "protein" then targets.Ppm
    else if cat = "carb" then targets.Cpm
    else if cat = "fat" then targets.Fpm else 0
  let ranked := jsort (fun a b =>
    decide (|macroGetter cat a - targetMacro| ≤ |macroGetter cat b - targetMacro|)) ingList
  let sh := jshuffle ranked rng
  let out := extAll targets pcA ranked sh.1 ingList.length kMin kMax beams sh.2
  ((jsort comboLE out.1).take beamSize, out.2)

/-- The final per-meal tolerance filter. -/
def withinTol (tol Ppm Cpm Fpm : ℚ) (b : MealCombo) : Bool :=
  decide (|b.totP - Ppm| ≤ Ppm * tol) &&
  ((decide (|b.totC - Cpm| ≤ Cpm * tol) || decide (Cpm < 15)) &&
   (decide (|b.totF - Fpm| ≤ Fpm * tol) || decide (Fpm < 10)))

def scoreLE (a b : MealCombo) : Bool := decide (a.score ≤ b.score)

/-- Final selection: prefer in-tolerance combos, else all beams; sort by
score and keep the single best. -/
def selectCombo (beams : List MealCombo) (tol Ppm Cpm Fpm : ℚ) : Option MealCombo :=
  (jsort scoreLE
    (if (beams.filter (withinTol tol Ppm Cpm Fpm)).isEmpty then beams
     else beams.filter (withinTol tol Ppm Cpm Fpm))).head?

structure ItemOut where
  ingredientId : String
  name : String
  grams : ℤ
  label : Option ℚ
  category : String
  p : ℤ
  c : ℤ
  f : ℤ
  kcal : ℤ
deriving DecidableEq, Repr

structure MacroTotals where
  p : ℤ
  c : ℤ
  f : ℤ
  kcal : ℤ
deriving DecidableEq, Repr

structure ComboOut where
  combo_label : String
  items : List ItemOut
  totals : MacroTotals
deriving DecidableEq, Repr

structure MealOptionsOut where
  protein_opts : List ComboOut
  carb_opts : List ComboOut
  veg_opts : List ComboOut
  fat_opts : List ComboOut
deriving DecidableEq, Repr

structure IngredientsPlanOut where
  meals : List MealOptionsOut
deriving DecidableEq, Repr

def formatItems (items : List Item) : List ItemOut :=
  items.map fun it =>
    { ingredientId := it.ingredientId, name := it.name, grams := jround it.grams,
      label := it.label, category := it.category, p := jround it.p,
      c := jround it.c, f := jround it.f, kcal := jround it.kcal }

def comboOutFor (label : String) (items : List Item) : List ComboOut :=
  if 0 < items.length then
    [{ combo_label := label, items := formatItems items,
       totals := { p := jround ((items.map Item.p).sum),
                   c := jround ((items.map Item.c).sum),
                   f := jround ((items.map Item.f).sum),
                   kcal := jround ((items.map Item.kcal).sum) } }]
  else []

/-- Regroup the best combo's items by category into the labeled per-category
combos of the response. -/
def formatMeal (best : MealCombo) : MealOptionsOut :=
  { protein_opts := comboOutFor "Protein" (best.items.filter fun it => it.category == "protein"),
    carb_opts := comboOutFor "Carbs" (best.items.filter fun it => it.category == "carb"),
    veg_opts := comboOutFor "Vegetables" (best.items.filter fun it => it.category == "veg"),
    fat_opts := comboOutFor "Fats" (best.items.filter fun it => it.category == "fat") }

def emptyMealOptions : MealOptionsOut := ⟨[], [], [], []⟩

/-- Category count ranges by goal: exactly one protein/veg/fat, one carb
unless the goal is fat loss (then zero-or-one). -/
def rangeFor (goalHint : Goal) (cat : String) : ℕ × ℕ :=
  if cat = "carb" then (if goalHint = Goal.fat_loss then (0, 1) else (1, 1))
  else (1, 1)

def tolOf (strictness : String) : ℚ :=
  if strictness = "tight" then 7/100
  else if strictness = "loose" then 15/100
  else 10/100

/-- The four beam stages in category order protein → carb → veg → fat with
the goal-dependent category count ranges and beam widths 40/60/60/60. -/
def stageChain (pool : String → List IngredientDoc)
    (pcA : List (String × List (IngredientDoc × PortionCandidate)))
    (dailyTg : Targets) (goalHint : Goal) (mealTg : Targets)
    (start : MealCombo) (rng : Rng) : List MealCombo × Rng :=
  let s1 := extendBeams pool pcA dailyTg [start] "protein"
    (rangeFor goalHint "protein").1 (rangeFor goalHint "protein").2 40 (some mealTg) rng
  let s2 := extendBeams pool pcA dailyTg s1.1 "carb"
    (rangeFor goalHint "carb").1 (rangeFor goalHint "carb").2 60 (some mealTg) s1.2
  let s3 := extendBeams pool pcA dailyTg s2.1 "veg"
    (rangeFor goalHint "veg").1 (rangeFor goalHint "veg").2 60 (some mealTg) s2.2
  extendBeams pool pcA dailyTg s3.1 "fat"
    (rangeFor goalHint "fat").1 (rangeFor goalHint "fat").2 60 (some mealTg) s3.2

/-- The surviving beams of one meal: perturb the per-meal targets by up to
±15% (three draws), then run the four beam stages from the empty combo. -/
def mealBeams (pool : String → List IngredientDoc)
    (pcA : List (String × List (IngredientDoc × PortionCandidate)))
    (Ppm Cpm Fpm Kpm : ℚ) (goalHint : Goal) (rng : Rng) :
    List MealCombo × Rng :=
  let d1 := rng.next
  let d2 := d1.2.next
  let d3 := d2.2.next
  let mealPpm := Ppm * (1 + (d1.1 - 1/2) * (15/100))
  let mealCpm := Cpm * (1 + (d2.1 - 1/2) * (15/100))
  let mealFpm := Fpm * (1 + (d3.1 - 1/2) * (15/100))
  let mealTg : Targets := ⟨mealPpm, mealCpm, mealFpm,
    mealPpm * 4 + mealCpm * 4 + mealFpm * 9⟩
  let dailyTg : Targets := ⟨Ppm, Cpm, Fpm, Kpm⟩
  let start : MealCombo := ⟨[], 0, 0, 0, 0, scoreCombo 0 0 0 Ppm Cpm Fpm Kpm⟩
  stageChain pool pcA dailyTg goalHint mealTg start d3.2

/-- One meal of `buildIngredientPlan`: beams, then final selection; an empty
selection yields the empty-category fallback meal. -/
def buildMeal (pool : String → List IngredientDoc)
    (pcA : List (String × List (IngredientDoc × PortionCandidate)))
    (tol Ppm Cpm Fpm Kpm : ℚ) (goalHint : Goal) (rng : Rng) :
    MealOptionsOut × Rng :=
  match selectCombo (mealBeams pool pcA Ppm Cpm Fpm Kpm goalHint rng).1 tol Ppm Cpm Fpm with
  | some best => (formatMeal best, (mealBeams pool pcA Ppm Cpm Fpm Kpm goalHint rng).2)
  | none => (emptyMealOptions, (mealBeams pool pcA Ppm Cpm Fpm Kpm goalHint rng).2)

def mealLoop (pool : String → List IngredientDoc)
    (pcA : List (String × List (IngredientDoc × PortionCandidate)))
    (tol Ppm Cpm Fpm Kpm : ℚ) (goalHint : Goal) :
    ℕ → Rng → List MealOptionsOut × Rng
  | 0, rng => ([], rng)
  | Nat.succ n, rng =>
    let m1 := buildMeal pool pcA tol Ppm Cpm Fpm Kpm goalHint rng
    let rest := mealLoop pool pcA tol Ppm Cpm Fpm Kpm goalHint n m1.2
    (m1.1 :: rest.1, rest.2)

/-- The category pools: the tier-filtered catalog split by category. -/
def poolOf (catalog : List IngredientDoc) (cat : String) : List IngredientDoc :=
  catalog.filter fun i => i.category == cat

/-- `buildIngredientPlan` over an explicit (already tier-filtered) catalog
and an explicit random stream. -/
def buildIngredientPlan (catalog : List IngredientDoc)
    (protein_g fat_g carb_g : ℚ) (meals_per_day : ℕ)
    (strictness : String) (goalHint : Goal) (rng : Rng) : IngredientsPlanOut :=
  let pool := poolOf catalog
  let tol := tolOf strictness
  let Ppm := protein_g / (meals_per_day : ℚ)
  let Cpm := carb_g / (meals_per_day : ℚ)
  let Fpm := fat_g / (meals_per_day : ℚ)
  let Kpm := Ppm * 4 + Cpm * 4 + Fpm * 9
  let pcA := pcandsAssoc pool Ppm Cpm Fpm
  ⟨(mealLoop pool pcA tol Ppm Cpm Fpm Kpm goalHint meals_per_day rng).1⟩

/-- Count of a combo's items in one category. -/
def countCat (its : List Item) (cat : String) : ℕ :=
  (its.filter fun it => it.category == cat).length

/-- Total number of items across the combos of one output category list. -/
def itemsCount (l : List ComboOut) : ℕ := (l.map fun co => co.items.length).sum

/-- Invariant: a combo's protein total is the sum of its items' protein. -/
def totPok (c : MealCombo) : Prop := c.totP = (c.items.map Item.p).sum

/-- The category policy the final combos must satisfy. -/
def comboCounts (goal : Goal) (c : MealCombo) : Prop :=
  countCat c.items "protein" = 1 ∧ countCat c.items "veg" = 1 ∧
  countCat c.items "fat" = 1 ∧
  (goal = Goal.fat_loss → countCat c.items "carb" ≤ 1) ∧
  (goal ≠ Goal.fat_loss → countCat c.items "carb" = 1)

/-! ### Membership invariants of the beam pipeline -/

theorem mem_swapIdx {α : Type} (l : List α) (i j : ℕ) (x : α)
    (h : x ∈ swapIdx l i j) : x ∈ l := by
  unfold swapIdx at h
  rcases hi : l[i]? with _ | a <;> rw [hi] at h
  · exact h
  · rcases hj : l[j]? with _ | b <;> rw [hj] at h
    · exact h
    · rcases List.mem_or_eq_of_mem_set h with h2 | rfl
      · rcases List.mem_or_eq_of_mem_set h2 with h3 | rfl
        · exact h3
        · exact List.getElem?_mem hj
      · exact List.getElem?_mem hi

theorem mem_shuffleStep {α : Type} (x : α) :
    ∀ (n : ℕ) (l : List α) (rng : Rng), x ∈ (shuffleStep n (l, rng)).1 → x ∈ l
  | 0, _, _, h => h
  | Nat.succ n, l, rng, h => by
    simp only [shuffleStep] at h
    exact mem_swapIdx _ _ _ _ (mem_shuffleStep x n _ _ h)

theorem mem_jshuffle {α : Type} (l : List α) (rng : Rng) (x : α)
    (h : x ∈ (jshuffle l rng).1) : x ∈ l :=
  mem_shuffleStep x _ l rng h

theorem mem_pairsOf {α : Type} (p : α × α) :
    ∀ l : List α, p ∈ pairsOf l → p.1 ∈ l ∧ p.2 ∈ l
  | [], h => by simp [pairsOf] at h
  | x :: t, h => by
    simp only [pairsOf, List.mem_append] at h
    rcases h with h | h
    · rcases List.mem_map.mp h with ⟨y, hy, rfl⟩
      exact ⟨List.mem_cons_self x t, List.mem_cons_of_mem _ hy⟩
    · rcases mem_pairsOf p t h with ⟨h1, h2⟩
      exact ⟨List.mem_cons_of_mem _ h1, List.mem_cons_of_mem _ h2⟩

theorem addItems_items (tg : Targets) (beam : MealCombo) (its : List Item) :
    (addItems tg beam its).items = beam.items ++ its := rfl

theorem addItems_totP (tg : Targets) (beam : MealCombo) (its : List Item) :
    (addItems tg beam its).totP = beam.totP + (its.map Item.p).sum := rfl

theorem mem_singleExts (tg : Targets)
    (pcA : List (String × List (IngredientDoc × PortionCandidate)))
    (beam : MealCombo) (choices : List IngredientDoc) (c : MealCombo)
    (h : c ∈ singleExts tg pcA beam choices) :
    ∃ its : List Item, c = addItems tg beam its ∧ its.length = 1 ∧
      ∀ it ∈ its, ∃ ing ∈ choices, it.category = ing.category := by
  unfold singleExts at h
  rcases List.mem_flatMap.mp h with ⟨ing, hing, h2⟩
  rcases List.mem_map.mp h2 with ⟨pr, _, rfl⟩
  refine ⟨[mkItem ing pr.2], rfl, rfl, ?_⟩
  intro it hit
  rcases List.mem_singleton.mp hit with rfl
  exact ⟨ing, (List.mem_filter.mp hing).1, rfl⟩

theorem mem_pairExts (tg : Targets)
    (pcA : List (String × List (IngredientDoc × PortionCandidate)))
    (beam : MealCombo) (choices : List IngredientDoc) (c : MealCombo)
    (h : c ∈ pairExts tg pcA beam choices) :
    ∃ its : List Item, c = addItems tg beam its ∧ its.length = 2 ∧
      ∀ it ∈ its, ∃ ing ∈ choices, it.category = ing.category := by
  unfold pairExts at h
  rcases List.mem_flatMap.mp h with ⟨ab, hab, h2⟩
  rcases List.mem_map.mp h2 with ⟨prs, _, rfl⟩
  rcases mem_pairsOf ab choices (List.mem_filter.mp hab).1 with ⟨ha, hb⟩
  refine ⟨[mkItem ab.1 prs.1.2, mkItem ab.2 prs.2.2], rfl, rfl, ?_⟩
  intro it hit
  rcases List.mem_cons.mp hit with rfl | hit2
  · exact ⟨ab.1, ha, rfl⟩
  · rcases List.mem_singleton.mp hit2 with rfl
    exact ⟨ab.2, hb, rfl⟩

theorem mem_extForK (tg : Targets)
    (pcA : List (String × List (IngredientDoc × PortionCandidate)))
    (ranked shuffled : List IngredientDoc) (poolLen : ℕ)
    (beam : MealCombo) (k : ℕ) (rng : Rng) (c : MealCombo)
    (h : c ∈ (extForK tg pcA ranked shuffled poolLen beam k rng).1) :
    (k = 0 ∧ c = beam) ∨
    (1 ≤ k ∧ ∃ its : List Item, c = addItems tg beam its ∧
      (its.length = 1 ∨ (2 ≤ k ∧ its.length = 2)) ∧
      ∀ it ∈ its, ∃ ing, (ing ∈ ranked ∨ ing ∈ shuffled) ∧ it.category = ing.category) := by
  unfold extForK at h
  by_cases hk : k = 0
  · rw [if_pos hk] at h
    exact Or.inl ⟨hk, (List.mem_singleton.mp h).symm ▸ rfl⟩
  · rw [if_neg hk] at h
    have hk1 : 1 ≤ k := Nat.one_le_iff_ne_zero.mpr hk
    have hchoice : ∀ ing : IngredientDoc,
        ing ∈ (if decide (rng.next.1 < 3/5) = true then shuffled else ranked).take
          (min 20 poolLen) → ing ∈ ranked ∨ ing ∈ shuffled := by
      intro ing hing
      have h2 := List.mem_of_mem_take hing
      by_cases hflip : decide (rng.next.1 < 3/5) = true
      · rw [if_pos hflip] at h2; exact Or.inr h2
      · rw [if_neg hflip] at h2; exact Or.inl h2
    rcases List.mem_append.mp h with h2 | h2
    · rcases mem_singleExts _ _ _ _ _ h2 with ⟨its, rfl, hlen, hcats⟩
      refine Or.inr ⟨hk1, its, rfl, Or.inl hlen, ?_⟩
      intro it hit
      rcases hcats it hit with ⟨ing, hing, hcat⟩
      exact ⟨ing, hchoice ing hing, hcat⟩
    · by_cases hk2 : 2 ≤ k
      · rw [if_pos hk2] at h2
        rcases mem_pairExts _ _ _ _ _ h2 with ⟨its, rfl, hlen, hcats⟩
        refine Or.inr ⟨hk1, its, rfl, Or.inr ⟨hk2, hlen⟩, ?_⟩
        intro it hit
        rcases hcats it hit with ⟨ing, hing, hcat⟩
        exact ⟨ing, hchoice ing hing, hcat⟩
      · rw [if_neg hk2] at h2
        simp at h2

theorem mem_kList (kMin kMax k : ℕ) : k ∈ kList kMin kMax ↔ kMin ≤ k ∧ k ≤ kMax := by
  unfold kList
  simp only [List.mem_map, List.mem_range]
  constructor
  · rintro ⟨i, hi, rfl⟩; omega
  · rintro ⟨h1, h2⟩; exact ⟨k - kMin, by omega, by omega⟩

theorem mem_foldl_extK (tg : Targets)
    (pcA : List (String × List (IngredientDoc × PortionCandidate)))
    (ranked shuffled : List IngredientDoc) (poolLen : ℕ) (beam : MealCombo) :
    ∀ (ks : List ℕ) (acc : List MealCombo × Rng) (c : MealCombo),
      c ∈ (ks.foldl (fun acc k =>
        let st := extForK tg pcA ranked shuffled poolLen beam k acc.2
        (acc.1 ++ st.1, st.2)) acc).1 →
      c ∈ acc.1 ∨ ∃ k ∈ ks, ∃ rg : Rng,
        c ∈ (extForK tg pcA ranked shuffled poolLen beam k rg).1
  | [], _, _, h => Or.inl h
  | k0 :: ks, acc, c, h => by
    rcases mem_foldl_extK tg pcA ranked shuffled poolLen beam ks _ c h with h2 |
      ⟨k, hk, rg, h3⟩
    · rcases List.mem_append.mp h2 with h4 | h4
      · exact Or.inl h4
      · exact Or.inr ⟨k0, List.mem_cons_self k0 ks, acc.2, h4⟩
    · exact Or.inr ⟨k, List.mem_cons_of_mem _ hk, rg, h3⟩

theorem mem_extForBeam (tg : Targets)
    (pcA : List (String × List (IngredientDoc × PortionCandidate)))
    (ranked shuffled : List IngredientDoc) (poolLen : ℕ) (kMin kMax : ℕ)
    (beam : MealCombo) (rng : Rng) (c : MealCombo)
    (h : c ∈ (extForBeam tg pcA ranked shuffled poolLen kMin kMax beam rng).1) :
    ∃ k, (kMin ≤ k ∧ k ≤ kMax) ∧ ∃ rg : Rng,
      c ∈ (extForK tg pcA ranked shuffled poolLen beam k rg).1 := by
  unfold extForBeam at h
  rcases mem_foldl_extK tg pcA ranked shuffled poolLen beam _ _ c h with h2 |
    ⟨k, hk, rg, h3⟩
  · simp at h2
  · exact ⟨k, (mem_kList kMin kMax k).mp hk, rg, h3⟩

theorem mem_foldl_extBeam (tg : Targets)
    (pcA : List (String × List (IngredientDoc × PortionCandidate)))
    (ranked shuffled : List IngredientDoc) (poolLen : ℕ) (kMin kMax : ℕ) :
    ∀ (beams : List MealCombo) (acc : List MealCombo × Rng) (c : MealCombo),
      c ∈ (beams.foldl (fun acc beam =>
        let st := extForBeam tg pcA ranked shuffled poolLen kMin kMax beam acc.2
        (acc.1 ++ st.1, st.2)) acc).1 →
      c ∈ acc.1 ∨ ∃ b ∈ beams, ∃ rg : Rng,
        c ∈ (extForBeam tg pcA ranked shuffled poolLen kMin kMax b rg).1
  | [], _, _, h => Or.inl h
  | b0 :: bs, acc, c, h => by
    rcases mem_foldl_extBeam tg pcA ranked shuffled poolLen kMin kMax bs _ c h with h2 |
      ⟨b, hb, rg, h3⟩
    · rcases List.mem_append.mp h2 with h4 | h4
      · exact Or.inl h4
      · exact Or.inr ⟨b0, List.mem_cons_self b0 bs, acc.2, h4⟩
    · exact Or.inr ⟨b, List.mem_cons_of_mem _ hb, rg, h3⟩

/-- The core invariant of one beam stage: each output combo extends some
input beam by a list of added items, all from the stage's category pool;
the number of added items is controlled by the allowed k range. -/
theorem mem_extendBeams (pool : String → List IngredientDoc)
    (pcA : List (String × List (IngredientDoc × PortionCandidate)))
    (dailyTg : Targets) (beams : List MealCombo) (cat : String)
    (kMin kMax beamSize : ℕ) (mTg : Option Targets) (rng : Rng) (c : MealCombo)
    (hpool : ∀ i ∈ pool cat, i.category = cat)
    (hc : c ∈ (extendBeams pool pcA dailyTg beams cat kMin kMax beamSize mTg rng).1) :
    ∃ b ∈ beams, ∃ adds : List Item,
      c.items = b.items ++ adds ∧
      c.totP = b.totP + (adds.map Item.p).sum ∧
      (∀ it ∈ adds, it.category = cat) ∧
      (adds.length = 0 → kMin = 0) ∧
      (1 ≤ kMin → 1 ≤ adds.length) ∧
      (kMax ≤ 1 → adds.length ≤ 1) := by
  unfold extendBeams at hc
  have hc2 := (mem_jsort comboLE c _).mp (List.mem_of_mem_take hc)
  unfold extAll at hc2
  rcases mem_foldl_extBeam _ _ _ _ _ _ _ _ _ c hc2 with h2 | ⟨b, hb, rg, h3⟩
  · simp at h2
  · rcases mem_extForBeam _ _ _ _ _ _ _ _ _ c h3 with ⟨k, ⟨hkmin, hkmax⟩, rg2, h4⟩
    have hrk : ∀ ing : IngredientDoc,
        ing ∈ jsort (fun a b =>
          decide (|macroGetter cat a - (if cat = "protein" then (mTg.getD dailyTg).Ppm
            else if cat = "carb" then (mTg.getD dailyTg).Cpm
            else if cat = "fat" then (mTg.getD dailyTg).Fpm else 0)| ≤
            |macroGetter cat b - (if cat = "protein" then (mTg.getD dailyTg).Ppm
            else if cat = "carb" then (mTg.getD dailyTg).Cpm
            else if cat = "fat" then (mTg.getD dailyTg).Fpm else 0)|)) (pool cat) →
        ing.category = cat := by
      intro ing hing
      exact hpool ing ((mem_jsort _ ing _).mp hing)
    rcases mem_extForK _ _ _ _ _ _ _ _ c h4 with ⟨hk0, rfl⟩ | ⟨hk1, its, rfl, hlen, hcats⟩
    · refine ⟨c, hb, [], by simp, by simp, by simp, fun _ => by omega, ?_, ?_⟩
      · intro h1; omega
      · intro _; simp
    · refine ⟨b, hb, its, addItems_items _ _ _, addItems_totP _ _ _, ?_, ?_, ?_, ?_⟩
      · intro it hit
        rcases hcats it hit with ⟨ing, hing, hcat⟩
        rcases hing with hing | hing
        · exact hcat.trans (hrk ing hing)
        · exact hcat.trans (hrk ing (mem_jshuffle _ _ ing hing))
      · intro hlen0
        rcases hlen with hlen | ⟨_, hlen⟩ <;> omega
      · intro _
        rcases hlen with hlen | ⟨_, hlen⟩ <;> omega
      · intro hkm
        rcases hlen with hlen | ⟨hk2, hlen⟩
        · omega
        · omega

theorem countCat_append (a b : List Item) (cat : String) :
    countCat (a ++ b) cat = countCat a cat + countCat b cat := by
  simp [countCat, List.filter_append]

theorem countCat_all_eq {adds : List Item} {cat : String}
    (h : ∀ it ∈ adds, it.category = cat) : countCat adds cat = adds.length := by
  induction adds with
  | nil => rfl
  | cons a t ih =>
    have ha : (a.category == cat) = true := beq_iff_eq.mpr (h a (List.mem_cons_self a t))
    have ht := ih fun it hit => h it (List.mem_cons_of_mem _ hit)
    simp [countCat, List.filter_cons, ha] at ht ⊢
    exact ht

theorem countCat_all_ne {adds : List Item} {cat cat2 : String} (hne : cat ≠ cat2)
    (h : ∀ it ∈ adds, it.category = cat) : countCat adds cat2 = 0 := by
  induction adds with
  | nil => rfl
  | cons a t ih =>
    have ha : (a.category == cat2) = false := by
      rw [beq_eq_false_iff_ne]
      rw [h a (List.mem_cons_self a t)]
      exact hne
    have ht := ih fun it hit => h it (List.mem_cons_of_mem _ hit)
    simp [countCat, List.filter_cons, ha] at ht ⊢
    exact ht

/-- Every combo surviving the four stages started from the empty beam
satisfies the total-protein invariant and the category count policy. -/
theorem mem_stageChain (pool : String → List IngredientDoc)
    (pcA : List (String × List (IngredientDoc × PortionCandidate)))
    (dailyTg : Targets) (goal : Goal) (mealTg : Targets) (start : MealCombo)
    (rng : Rng) (c : MealCombo)
    (hpool : ∀ cat : String, ∀ i ∈ pool cat, i.category = cat)
    (hsi : start.items = []) (hsp : start.totP = 0)
    (hc : c ∈ (stageChain pool pcA dailyTg goal mealTg start rng).1) :
    totPok c ∧ comboCounts goal c := by
  unfold stageChain at hc
  rcases mem_extendBeams _ _ _ _ _ _ _ _ _ _ c (hpool "fat") hc with
    ⟨b3, hb3, aF, hiF, hpF, hcF, _, h1F, hleF⟩
  rcases mem_extendBeams _ _ _ _ _ _ _ _ _ _ b3 (hpool "veg") hb3 with
    ⟨b2, hb2, aV, hiV, hpV, hcV, _, h1V, hleV⟩
  rcases mem_extendBeams _ _ _ _ _ _ _ _ _ _ b2 (hpool "carb") hb2 with
    ⟨b1, hb1, aC, hiC, hpC, hcC, h0C, h1C, hleC⟩
  rcases mem_extendBeams _ _ _ _ _ _ _ _ _ _ b1 (hpool "protein") hb1 with
    ⟨b0, hb0, aP, hiP, hpP, hcP, _, h1P, hleP⟩
  have hb0e : b0 = start := List.mem_singleton.mp hb0
  subst hb0e
  have hitems : c.items = aP ++ aC ++ aV ++ aF := by
    rw [hiF, hiV, hiC, hiP, hsi]
    simp [List.append_assoc]
  have hlP : aP.length = 1 := by
    have h1 := h1P (by simp [rangeFor])
    have h2 := hleP (by simp [rangeFor])
    omega
  have hlV : aV.length = 1 := by
    have h1 := h1V (by simp [rangeFor])
    have h2 := hleV (by simp [rangeFor])
    omega
  have hlF : aF.length = 1 := by
    have h1 := h1F (by simp [rangeFor])
    have h2 := hleF (by simp [rangeFor])
    omega
  constructor
  · unfold totPok
    rw [hpF, hpV, hpC, hpP, hsp, hitems]
    simp [List.map_append, List.sum_append]
    ring
  · have hcount : ∀ cat2 : String, countCat c.items cat2 =
        countCat aP cat2 + countCat aC cat2 + countCat aV cat2 + countCat aF cat2 := by
      intro cat2
      rw [hitems]
      simp only [countCat_append]
    refine ⟨?_, ?_, ?_, ?_, ?_⟩
    · rw [hcount "protein", countCat_all_eq hcP, countCat_all_ne (by decide) hcC,
        countCat_all_ne (by decide) hcV, countCat_all_ne (by decide) hcF, hlP]
    · rw [hcount "veg", countCat_all_ne (by decide) hcP, countCat_all_ne (by decide) hcC,
        countCat_all_eq hcV, countCat_all_ne (by decide) hcF, hlV]
    · rw [hcount "fat", countCat_all_ne (by decide) hcP, countCat_all_ne (by decide) hcC,
        countCat_all_ne (by decide) hcV, countCat_all_eq hcF, hlF]
    · intro hg
      rw [hcount "carb", countCat_all_ne (by decide) hcP, countCat_all_eq hcC,
        countCat_all_ne (by decide) hcV, countCat_all_ne (by decide) hcF]
      have h2 := hleC (by simp [rangeFor, hg])
      omega
    · intro hg
      rw [hcount "carb", countCat_all_ne (by decide) hcP, countCat_all_eq hcC,
        countCat_all_ne (by decide) hcV, countCat_all_ne (by decide) hcF]
      have h1 := h1C (by simp [rangeFor, if_neg hg])
      have h2 := hleC (by simp [rangeFor, if_neg hg])
      omega

theorem scoreLE_total (a b : MealCombo) : scoreLE a b || scoreLE b a := by
  unfold scoreLE
  rcases le_total a.score b.score with h | h <;> simp [h]

theorem scoreLE_trans (a b c : MealCombo) : scoreLE a b → scoreLE b c → scoreLE a c := by
  unfold scoreLE
  intro h1 h2
  simp only [decide_eq_true_eq] at h1 h2 ⊢
  exact le_trans h1 h2

/-- The selected combo is a beam member, and is either protein-tolerant or
the fall-back: the minimum-score combo when no beam passed the filter. -/
theorem selectCombo_spec (beams : List MealCombo) (tol Ppm Cpm Fpm : ℚ)
    (c : MealCombo) (h : selectCombo beams tol Ppm Cpm Fpm = some c) :
    c ∈ beams ∧
    (|c.totP - Ppm| ≤ Ppm * tol ∨
     (beams.filter (withinTol tol Ppm Cpm Fpm) = [] ∧ ∀ b ∈ beams, c.score ≤ b.score)) := by
  unfold selectCombo at h
  by_cases hwt : (beams.filter (withinTol tol Ppm Cpm Fpm)).isEmpty = true
  · rw [if_pos hwt] at h
    have hmin := jsort_head_min scoreLE_total scoreLE_trans beams c h
    refine ⟨hmin.1, Or.inr ⟨List.isEmpty_iff.mp hwt, ?_⟩⟩
    intro b hb
    have := hmin.2 b hb
    simpa [scoreLE] using this
  · rw [if_neg hwt] at h
    have hmin := jsort_head_min scoreLE_total scoreLE_trans _ c h
    have hcf := hmin.1
    rcases List.mem_filter.mp hcf with ⟨hcb, hwtc⟩
    refine ⟨hcb, Or.inl ?_⟩
    unfold withinTol at hwtc
    have h1 := (Bool.and_eq_true _ _).mp hwtc
    simpa using h1.1

theorem selectCombo_nil (tol Ppm Cpm Fpm : ℚ) :
    selectCombo [] tol Ppm Cpm Fpm = none := rfl

/-! ### Empty-pool behaviour -/

theorem extForK_empty (tg : Targets)
    (pcA : List (String × List (IngredientDoc × PortionCandidate)))
    (poolLen : ℕ) (beam : MealCombo) (k : ℕ) (rng : Rng) (hk : k ≠ 0) :
    (extForK tg pcA [] [] poolLen beam k rng).1 = [] := by
  unfold extForK
  rw [if_neg hk]
  simp [singleExts, pairExts, pairsOf]

theorem extForBeam_empty (tg : Targets)
    (pcA : List (String × List (IngredientDoc × PortionCandidate)))
    (poolLen : ℕ) (kMin kMax : ℕ) (beam : MealCombo) (rng : Rng)
    (hk : 1 ≤ kMin) :
    (extForBeam tg pcA [] [] poolLen kMin kMax beam rng).1 = [] := by
  unfold extForBeam
  have hgen : ∀ (ks : List ℕ), (∀ k ∈ ks, k ≠ 0) →
      ∀ acc : List MealCombo × Rng,
        (ks.foldl (fun acc k =>
          let st := extForK tg pcA [] [] poolLen beam k acc.2
          (acc.1 ++ st.1, st.2)) acc).1 = acc.1 := by
    intro ks
    induction ks with
    | nil => intro _ acc; rfl
    | cons k0 t ih =>
      intro hks acc
      have h0 := extForK_empty tg pcA poolLen beam k0 acc.2
        (hks k0 (List.mem_cons_self k0 t))
      rw [List.foldl_cons, ih (fun k hk2 => hks k (List.mem_cons_of_mem _ hk2))]
      simp [h0]
  apply hgen
  intro k hk2
  have := (mem_kList kMin kMax k).mp hk2
  omega

theorem extAll_empty (tg : Targets)
    (pcA : List (String × List (IngredientDoc × PortionCandidate)))
    (poolLen : ℕ) (kMin kMax : ℕ) (beams : List MealCombo) (rng : Rng)
    (hk : 1 ≤ kMin) :
    (extAll tg pcA [] [] poolLen kMin kMax beams rng).1 = [] := by
  unfold extAll
  have hgen : ∀ (bs : List MealCombo) (acc : List MealCombo × Rng),
      (bs.foldl (fun acc beam =>
        let st := extForBeam tg pcA [] [] poolLen kMin kMax beam acc.2
        (acc.1 ++ st.1, st.2)) acc).1 = acc.1 := by
    intro bs
    induction bs with
    | nil => intro acc; rfl
    | cons b0 t ih =>
      intro acc
      rw [List.foldl_cons, ih]
      simp [extForBeam_empty tg pcA poolLen kMin kMax b0 acc.2 hk]
  exact hgen beams ([], rng)

theorem jshuffle_nil {α : Type} (rng : Rng) : (jshuffle ([] : List α) rng).1 = [] := rfl

/-- A stage over an empty pool with a mandatory pick kills every beam. -/
theorem extendBeams_empty_pool (pool : String → List IngredientDoc)
    (pcA : List (String × List (IngredientDoc × PortionCandidate)))
    (dailyTg : Targets) (beams : List MealCombo) (cat : String)
    (kMin kMax beamSize : ℕ) (mTg : Option Targets) (rng : Rng)
    (hpool : pool cat = []) (hk : 1 ≤ kMin) :
    (extendBeams pool pcA dailyTg beams cat kMin kMax beamSize mTg rng).1 = [] := by
  unfold extendBeams
  simp only [hpool, jsort, jshuffle_nil]
  rw [extAll_empty _ _ _ _ _ _ _ hk]
  simp [jsort]

/-- A stage with no input beams produces no beams. -/
theorem extendBeams_nil_beams (pool : String → List IngredientDoc)
    (pcA : List (String × List (IngredientDoc × PortionCandidate)))
    (dailyTg : Targets) (cat : String) (kMin kMax beamSize : ℕ)
    (mTg : Option Targets) (rng : Rng) :
    (extendBeams pool pcA dailyTg [] cat kMin kMax beamSize mTg rng).1 = [] := by
  unfold extendBeams extAll
  simp [jsort]

/-! ### Per-meal and per-plan specifications -/

theorem mem_mealBeams (pool : String → List IngredientDoc)
    (pcA : List (String × List (IngredientDoc × PortionCandidate)))
    (Ppm Cpm Fpm Kpm : ℚ) (goal : Goal) (rng : Rng) (c : MealCombo)
    (hpool : ∀ cat : String, ∀ i ∈ pool cat, i.category = cat)
    (hc : c ∈ (mealBeams pool pcA Ppm Cpm Fpm Kpm goal rng).1) :
    totPok c ∧ comboCounts goal c := by
  unfold mealBeams at hc
  exact mem_stageChain _ _ _ _ _ _ _ c hpool rfl rfl hc

/-- The beams of a meal are all killed when a mandatory category pool is
empty. -/
theorem mealBeams_empty_pool (pool : String → List IngredientDoc)
    (pcA : List (String × List (IngredientDoc × PortionCandidate)))
    (Ppm Cpm Fpm Kpm : ℚ) (goal : Goal) (rng : Rng)
    (h : pool "protein" = [] ∨ pool "veg" = [] ∨ pool "fat" = [] ∨
         (goal ≠ Goal.fat_loss ∧ pool "carb" = [])) :
    (mealBeams pool pcA Ppm Cpm Fpm Kpm goal rng).1 = [] := by
  rw [List.eq_nil_iff_forall_not_mem]
  intro c hc
  simp only [mealBeams, stageChain] at hc
  rcases h with h | h | h | ⟨hg, h⟩
  · rw [extendBeams_empty_pool _ _ _ _ _ _ _ _ _ _ h (by simp [rangeFor])] at hc
    rw [extendBeams_nil_beams] at hc
    rw [extendBeams_nil_beams] at hc
    rw [extendBeams_nil_beams] at hc
    exact absurd hc (List.not_mem_nil c)
  · rw [extendBeams_empty_pool _ _ _ _ _ _ _ _ _ _ h (by simp [rangeFor])] at hc
    rw [extendBeams_nil_beams] at hc
    exact absurd hc (List.not_mem_nil c)
  · rw [extendBeams_empty_pool _ _ _ _ _ _ _ _ _ _ h (by simp [rangeFor])] at hc
    exact absurd hc (List.not_mem_nil c)
  · rw [extendBeams_empty_pool _ _ _ _ _ _ _ _ _ _ h
      (by simp [rangeFor, if_neg hg])] at hc
    rw [extendBeams_nil_beams] at hc
    rw [extendBeams_nil_beams] at hc
    exact absurd hc (List.not_mem_nil c)

theorem buildMeal_empty_pool (pool : String → List IngredientDoc)
    (pcA : List (String × List (IngredientDoc × PortionCandidate)))
    (tol Ppm Cpm Fpm Kpm : ℚ) (goal : Goal) (rng : Rng)
    (h : pool "protein" = [] ∨ pool "veg" = [] ∨ pool "fat" = [] ∨
         (goal ≠ Goal.fat_loss ∧ pool "carb" = [])) :
    (buildMeal pool pcA tol Ppm Cpm Fpm Kpm goal rng).1 = emptyMealOptions := by
  unfold buildMeal
  rw [mealBeams_empty_pool _ _ _ _ _ _ _ _ h]
  rfl

theorem buildMeal_spec (pool : String → List IngredientDoc)
    (pcA : List (String × List (IngredientDoc × PortionCandidate)))
    (tol Ppm Cpm Fpm Kpm : ℚ) (goal : Goal) (rng : Rng)
    (hpool : ∀ cat : String, ∀ i ∈ pool cat, i.category = cat) :
    (buildMeal pool pcA tol Ppm Cpm Fpm Kpm goal rng).1 = emptyMealOptions ∨
    ∃ bs c, selectCombo bs tol Ppm Cpm Fpm = some c ∧
      (buildMeal pool pcA tol Ppm Cpm Fpm Kpm goal rng).1 = formatMeal c ∧
      ∀ b ∈ bs, totPok b ∧ comboCounts goal b := by
  unfold buildMeal
  rcases hsel : selectCombo (mealBeams pool pcA Ppm Cpm Fpm Kpm goal rng).1
      tol Ppm Cpm Fpm with _ | best
  · exact Or.inl rfl
  · exact Or.inr ⟨(mealBeams pool pcA Ppm Cpm Fpm Kpm goal rng).1, best, hsel, rfl,
      fun b hb => mem_mealBeams _ _ _ _ _ _ _ _ b hpool hb⟩

theorem mem_mealLoop (pool : String → List IngredientDoc)
    (pcA : List (String × List (IngredientDoc × PortionCandidate)))
    (tol Ppm Cpm Fpm Kpm : ℚ) (goal : Goal) (n : ℕ) :
    ∀ (rng : Rng) (mo : MealOptionsOut),
      mo ∈ (mealLoop pool pcA tol Ppm Cpm Fpm Kpm goal n rng).1 →
      ∃ rg : Rng, mo = (buildMeal pool pcA tol Ppm Cpm Fpm Kpm goal rg).1 := by
  induction n with
  | zero => intro rng mo h; simp [mealLoop] at h
  | succ n ih =>
    intro rng mo h
    simp only [mealLoop] at h
    rcases List.mem_cons.mp h with h1 | h2
    · exact ⟨rng, h1⟩
    · exact ih _ mo h2

theorem cat_of_mem_pool (catalog : List IngredientDoc) (cat : String)
    (i : IngredientDoc) (h : i ∈ poolOf catalog cat) : i.category = cat :=
  eq_of_beq (List.mem_filter.mp h).2

/-- C4: for every input and every generated meal, either the meal is the
empty fallback, or it is the regrouping of a selected combination whose
summed item protein (= its running protein total) is within the active
tolerance of the per-meal protein target, or that was chosen as the
minimum-score survivor because no surviving combination passed the
tolerance filter. The normal-mode tolerance is 10%. -/
theorem c4_meal_protein_tolerance_or_fallback (catalog : List IngredientDoc)
    (protein_g fat_g carb_g : ℚ) (meals_per_day : ℕ) (strictness : String)
    (goalHint : Goal) (rng : Rng) (mo : MealOptionsOut)
    (hmo : mo ∈ (buildIngredientPlan catalog protein_g fat_g carb_g meals_per_day
      strictness goalHint rng).meals) :
    tolOf "normal" = 10/100 ∧
    (mo = emptyMealOptions ∨
     ∃ bs c, selectCombo bs (tolOf strictness) (protein_g / (meals_per_day : ℚ))
         (carb_g / (meals_per_day : ℚ)) (fat_g / (meals_per_day : ℚ)) = some c ∧
       mo = formatMeal c ∧
       (c.items.map Item.p).sum = c.totP ∧
       (|c.totP - protein_g / (meals_per_day : ℚ)| ≤
          (protein_g / (meals_per_day : ℚ)) * tolOf strictness ∨
        (bs.filter (withinTol (tolOf strictness) (protein_g / (meals_per_day : ℚ))
            (carb_g / (meals_per_day : ℚ)) (fat_g / (meals_per_day : ℚ))) = [] ∧
         c ∈ bs ∧ ∀ b ∈ bs, c.score ≤ b.score))) := by
  refine ⟨by decide, ?_⟩
  simp only [buildIngredientPlan] at hmo
  rcases mem_mealLoop (poolOf catalog)
      (pcandsAssoc (poolOf catalog) (protein_g / (meals_per_day : ℚ))
        (carb_g / (meals_per_day : ℚ)) (fat_g / (meals_per_day : ℚ)))
      (tolOf strictness) (protein_g / (meals_per_day : ℚ))
      (carb_g / (meals_per_day : ℚ)) (fat_g / (meals_per_day : ℚ))
      (protein_g / (meals_per_day : ℚ) * 4 + carb_g / (meals_per_day : ℚ) * 4 +
        fat_g / (meals_per_day : ℚ) * 9)
      goalHint meals_per_day rng mo hmo with ⟨rg, hrg⟩
  rcases buildMeal_spec _ _ _ _ _ _ _ _ rg (cat_of_mem_pool catalog) with hempty |
    ⟨bs, c, hsel, heq, hall⟩
  · exact Or.inl (hrg.trans hempty)
  · rcases selectCombo_spec _ _ _ _ _ _ hsel with ⟨hcbs, hdisj⟩
    refine Or.inr ⟨bs, c, hsel, hrg.trans heq, ((hall c hcbs).1).symm, ?_⟩
    rcases hdisj with hdisj | ⟨hnil, hmin⟩
    · exact Or.inl hdisj
    · exact Or.inr ⟨hnil, hcbs, hmin⟩

/-- C4 witness: with an empty catalog and one meal, the produced meal is the
empty fallback, satisfying the left disjunct. -/
theorem c4_witness :
    tolOf "normal" = 10/100 ∧
    (emptyMealOptions = emptyMealOptions ∨
     ∃ bs c, selectCombo bs (tolOf "normal") ((120 : ℚ) / ((1 : ℕ) : ℚ))
         ((200 : ℚ) / ((1 : ℕ) : ℚ)) ((60 : ℚ) / ((1 : ℕ) : ℚ)) = some c ∧
       emptyMealOptions = formatMeal c ∧
       (c.items.map Item.p).sum = c.totP ∧
       (|c.totP - 120 / ((1 : ℕ) : ℚ)| ≤ (120 / ((1 : ℕ) : ℚ)) * tolOf "normal" ∨
        (bs.filter (withinTol (tolOf "normal") (120 / ((1 : ℕ) : ℚ))
            (200 / ((1 : ℕ) : ℚ)) (60 / ((1 : ℕ) : ℚ))) = [] ∧
         c ∈ bs ∧ ∀ b ∈ bs, c.score ≤ b.score))) :=
  c4_meal_protein_tolerance_or_fallback [] 120 60 200 1 "normal" Goal.recomp
    ⟨fun _ => 0, 0⟩ emptyMealOptions (by decide)

theorem itemsCount_comboOutFor (lbl : String) (its : List Item) :
    itemsCount (comboOutFor lbl its) = its.length := by
  unfold comboOutFor itemsCount
  by_cases h : 0 < its.length
  · simp [h, formatItems]
  · simp only [h, if_false]
    simp at h
    simp [h]

/-- C5: every generated meal is either the empty fallback (and always is
when a mandatory category pool is empty — the call does not fail), or its
selected combination carries exactly one protein, one vegetable and one fat
item, and exactly one carb item unless the goal is fat loss (then at most
one). -/
theorem c5_category_inclusion_policy (catalog : List IngredientDoc)
    (protein_g fat_g carb_g : ℚ) (meals_per_day : ℕ) (strictness : String)
    (goalHint : Goal) (rng : Rng) (mo : MealOptionsOut)
    (hmo : mo ∈ (buildIngredientPlan catalog protein_g fat_g carb_g meals_per_day
      strictness goalHint rng).meals) :
    ((poolOf catalog "protein" = [] ∨ poolOf catalog "veg" = [] ∨
      poolOf catalog "fat" = [] ∨
      (goalHint ≠ Goal.fat_loss ∧ poolOf catalog "carb" = [])) →
      mo = emptyMealOptions) ∧
    (mo = emptyMealOptions ∨
     (itemsCount mo.protein_opts = 1 ∧ itemsCount mo.veg_opts = 1 ∧
      itemsCount mo.fat_opts = 1 ∧
      (goalHint = Goal.fat_loss → itemsCount mo.carb_opts ≤ 1) ∧
      (goalHint ≠ Goal.fat_loss → itemsCount mo.carb_opts = 1))) := by
  simp only [buildIngredientPlan] at hmo
  rcases mem_mealLoop (poolOf catalog)
      (pcandsAssoc (poolOf catalog) (protein_g / (meals_per_day : ℚ))
        (carb_g / (meals_per_day : ℚ)) (fat_g / (meals_per_day : ℚ)))
      (tolOf strictness) (protein_g / (meals_per_day : ℚ))
      (carb_g / (meals_per_day : ℚ)) (fat_g / (meals_per_day : ℚ))
      (protein_g / (meals_per_day : ℚ) * 4 + carb_g / (meals_per_day : ℚ) * 4 +
        fat_g / (meals_per_day : ℚ) * 9)
      goalHint meals_per_day rng mo hmo with ⟨rg, hrg⟩
  constructor
  · intro hpools
    exact hrg.trans (buildMeal_empty_pool _ _ _ _ _ _ _ _ rg hpools)
  · rcases buildMeal_spec _ _ _ _ _ _ _ _ rg (cat_of_mem_pool catalog) with hempty |
      ⟨bs, c, hsel, heq, hall⟩
    · exact Or.inl (hrg.trans hempty)
    · rcases selectCombo_spec _ _ _ _ _ _ hsel with ⟨hcbs, _⟩
      rcases (hall c hcbs).2 with ⟨hP, hV, hF, hCle, hCeq⟩
      refine Or.inr ?_
      rw [hrg.trans heq]
      unfold formatMeal
      simp only [itemsCount_comboOutFor]
      exact ⟨hP, hV, hF, hCle, hCeq⟩

/-- C5 witness: with an empty catalog every pool is empty and the meal is the
empty fallback. -/
theorem c5_witness :
    ((poolOf ([] : List IngredientDoc) "protein" = [] ∨
      poolOf ([] : List IngredientDoc) "veg" = [] ∨
      poolOf ([] : List IngredientDoc) "fat" = [] ∨
      (Goal.recomp ≠ Goal.fat_loss ∧ poolOf ([] : List IngredientDoc) "carb" = [])) →
      emptyMealOptions = emptyMealOptions) ∧
    (emptyMealOptions = emptyMealOptions ∨
     (itemsCount emptyMealOptions.protein_opts = 1 ∧
      itemsCount emptyMealOptions.veg_opts = 1 ∧
      itemsCount emptyMealOptions.fat_opts = 1 ∧
      (Goal.recomp = Goal.fat_loss → itemsCount emptyMealOptions.carb_opts ≤ 1) ∧
      (Goal.recomp ≠ Goal.fat_loss → itemsCount emptyMealOptions.carb_opts = 1))) :=
  c5_category_inclusion_policy [] 120 60 200 1 "normal" Goal.recomp
    ⟨fun _ => 0, 0⟩ emptyMealOptions (by decide)

/-! ### C2: the allocator's output depends on the `Math.random()` draws -/

/-- A minimal catalog: one piece-based protein (1 or 2 pieces of 100 g at
30 g protein each), one macro-free vegetable and one macro-free fat source. -/
def c2Catalog : List IngredientDoc :=
  [{ id := some "fish", name := "fish", category := "protein",
     macro_per_100g := ⟨120, 30, 0, 0⟩,
     portion := some { unit := some "piece", grams_per_piece := some 100,
                       min_pieces := some 1, max_pieces := some 2,
                       step_pieces := some 1 } },
   { id := some "greens", name := "greens", category := "veg",
     macro_per_100g := ⟨10, 0, 0, 0⟩ },
   { id := some "seeds", name := "seeds", category := "fat",
     macro_per_100g := ⟨50, 0, 0, 0⟩ }]

/-- C2: the meal allocator's output is a function of the `Math.random()`
draw stream — on a fixed catalog and fixed macro targets, two different
streams produce different plans. In the source those draws come from the
global, unseeded `Math.random()` with no injectable seed parameter, so a
fixed seed cannot be supplied and repeated runs need not agree. -/
theorem c2_output_depends_on_random_stream :
    buildIngredientPlan c2Catalog 45 0 0 1 "normal" Goal.fat_loss ⟨fun _ => 0, 0⟩ ≠
    buildIngredientPlan c2Catalog 45 0 0 1 "normal" Goal.fat_loss
      ⟨fun _ => 99/100, 0⟩ := by
  decide

end Weightio
